import Mathlib

set_option maxRecDepth 10000

/-!
Verification of the AUTOMATED-OMR-EVALUATION scoring and pipeline code.

The Python sources are shallowly embedded:
* dictionaries become association lists (`List (key × value)`), iterated in
  insertion order exactly as Python `dict.items()` does;
* answer letters become `Char` (the answer maps hold single option letters);
* Python floats become `ℚ` (the arithmetic in play is exact decimal);
* code that can raise returns `Except PyErr _` / `Option _`.
-/

/-- A Python exception class, as far as the embedded code distinguishes them. -/

inductive PyErr : Type
  | valueError : PyErr
  | indexError : PyErr
deriving DecidableEq, Repr

/-- Decimal value of a digit string: `Option.none` when empty or when some
character is not a decimal digit.  This is the digit-run core of Python's
`int(...)` parser. -/

def decDigitsVal? (cs : List Char) : Option Nat :=
  if cs.isEmpty then Option.none
  else cs.foldlM (fun acc c =>
    if c.isDigit then Option.some (acc * 10 + (c.toNat - 48)) else Option.none) 0

/-- Python `int(s)` on the sign-then-digits grammar (the forms that occur in
this code base: question keys such as `"37"` or `"-100"`; whitespace and
underscore separators never arise here).  `Option.none` models `ValueError`. -/

def pyIntOfChars? (cs : List Char) : Option Int :=
  match cs with
  | [] => Option.none
  | c :: rest =>
    if c = '-' then (decDigitsVal? rest).map (fun n => -(n : Int))
    else if c = '+' then (decDigitsVal? rest).map (fun n => (n : Int))
    else (decDigitsVal? (c :: rest)).map (fun n => (n : Int))

def pyInt? (s : String) : Option Int := pyIntOfChars? s.data

/-- Python `s.replace("Q", "")`: removes every occurrence of `'Q'`. -/

def removeQ (s : String) : String := (s.data.filter (fun c => c ≠ 'Q')).asString

/-- Python list indexing `l[i]` resolved to a `Nat` position: a negative `i`
counts from the end; `Option.none` models `IndexError`. -/

def pyIndex? (len : Nat) (i : Int) : Option Nat :=
  let j : Int := if i < 0 then (len : Int) + i else i
  if j < 0 ∨ (len : Int) ≤ j then Option.none else Option.some j.toNat

/-- A value of the student-answer dict produced by the answer mapper: a single
detected letter, Python `None` (no mark), or a list of letters (ambiguous,
multiple marks). -/

inductive StudentAnswer : Type
  | null : StudentAnswer
  | ans : Char → StudentAnswer
  | multi : List Char → StudentAnswer
deriving DecidableEq, Repr

namespace OMR

/-- `self.subject_config["subjects"]` (omr_processor.py line 24). -/

def subjects : List String :=
  ["Mathematics", "Physics", "Chemistry", "Biology", "English"]

/-- `self.subject_config["questions_per_subject"]` (omr_processor.py line 25). -/

def questions_per_subject : Nat := 20

/-- The correctness test of `calculate_subject_scores`, omr_processor.py lines
103–111: a list of answers (multiple marks) is incorrect, `None` is incorrect,
and a single letter is compared case-insensitively against the key's letter. -/

def isCorrect (student_answer : StudentAnswer) (correct_answer : Char) : Bool :=
  match student_answer with
  | StudentAnswer.multi _ => false
  | StudentAnswer.null => false
  | StudentAnswer.ans c => c.toUpper == correct_answer.toUpper

/-- The mutable tallies of the question loop of `calculate_subject_scores`:
per-subject correct counts (indexed like `subjects`; the Python code keys them
by the distinct subject names), `total_correct` and `total_questions`. -/

structure LoopState where
  counts : List Nat
  total_correct : Nat
  total_questions : Nat
deriving DecidableEq, Repr

/-- One iteration of the question loop of `calculate_subject_scores`
(omr_processor.py lines 84–116).  `Except.error` models the uncaught
exceptions: `ValueError` from `int(question_key.replace('Q', ''))` and
`IndexError` from `subjects[subject_index]` (Python resolves a negative
`subject_index` from the end of the list; only `subject_index >= len(subjects)`
is guarded by a `continue`). -/

def scoreStep (correct_answers : List (String × Char)) (st : LoopState)
    (item : String × StudentAnswer) : Except PyErr LoopState :=
  match List.lookup item.1 correct_answers with
  | Option.none => Except.ok st
  | Option.some correct_answer =>
    match pyInt? (removeQ item.1) with
    | Option.none => Except.error PyErr.valueError
    | Option.some question_num =>
      if (subjects.length : Int) ≤ (question_num - 1).fdiv (questions_per_subject : Int) then
        Except.ok st
      else
        match pyIndex? subjects.length ((question_num - 1).fdiv (questions_per_subject : Int)) with
        | Option.none => Except.error PyErr.indexError
        | Option.some idx =>
          if isCorrect item.2 correct_answer then
            Except.ok
              { counts := st.counts.set idx (st.counts.getD idx 0 + 1)
                total_correct := st.total_correct + 1
                total_questions := st.total_questions + 1 }
          else
            Except.ok { st with total_questions := st.total_questions + 1 }

/-- The result dict of `OMRProcessor.calculate_subject_scores`.  The lists are
indexed like `subjects` (the Python dicts are keyed by the subject names). -/

structure Scores where
  subject_scores : List ℚ
  total_score : ℚ
  correct_answers : Nat
  total_questions : Nat
  breakdown_correct : List Nat
  breakdown_total : List Nat
  breakdown_percentage : List ℚ
deriving DecidableEq, Repr

/-- Final value of one subject's `subject_scores` entry (omr_processor.py lines
119–124): the raw correct count is overwritten by `correct / total * 20` when
`total` (always `questions_per_subject`) is positive. -/

def finalSubjectScore (c : Nat) : ℚ :=
  if 0 < questions_per_subject then (c : ℚ) / (questions_per_subject : ℚ) * 20 else (c : ℚ)

/-- Final value of one subject's breakdown `percentage` (omr_processor.py lines
121–122). -/

def finalPercentage (c : Nat) : ℚ :=
  if 0 < questions_per_subject then (c : ℚ) / (questions_per_subject : ℚ) * 100 else 0

/-- `OMRProcessor.calculate_subject_scores` (omr_processor.py lines 57–130).
Iterates the student-answer dict; per shared question key, parses the question
number from the key, attributes the question to a subject by
`(question_num - 1) // questions_per_subject` (Python floor division and Python
list indexing, including its negative-index behaviour), and tallies
correctness.  Afterwards each subject's score is scaled to the 20-point scale
and `total_score` is the sum of the subject scores. -/

def calculate_subject_scores (student_answers : List (String × StudentAnswer))
    (correct_answers : List (String × Char)) : Except PyErr Scores :=
  match student_answers.foldlM (scoreStep correct_answers)
      { counts := List.replicate subjects.length 0, total_correct := 0, total_questions := 0 } with
  | Except.error e => Except.error e
  | Except.ok st =>
    Except.ok
      { subject_scores := st.counts.map finalSubjectScore
        total_score := (st.counts.map finalSubjectScore).sum
        correct_answers := st.total_correct
        total_questions := st.total_questions
        breakdown_correct := st.counts
        breakdown_total := List.replicate subjects.length questions_per_subject
        breakdown_percentage := st.counts.map finalPercentage }

/-- Specification view of one iteration of the question loop: the iteration
either skips the item, raises, or tallies it into the (normalized) subject
slot `idx` with a correctness flag. -/

inductive StepSpec : Type
  | skip : StepSpec
  | err : PyErr → StepSpec
  | tally : Nat → Bool → StepSpec
deriving DecidableEq, Repr

/-- What one iteration of the `calculate_subject_scores` loop does with an
item, independent of the running tallies. -/

def stepSpec (correct_answers : List (String × Char))
    (item : String × StudentAnswer) : StepSpec :=
  match List.lookup item.1 correct_answers with
  | Option.none => StepSpec.skip
  | Option.some correct_answer =>
    match pyInt? (removeQ item.1) with
    | Option.none => StepSpec.err PyErr.valueError
    | Option.some question_num =>
      if (subjects.length : Int) ≤ (question_num - 1).fdiv (questions_per_subject : Int) then
        StepSpec.skip
      else
        match pyIndex? subjects.length ((question_num - 1).fdiv (questions_per_subject : Int)) with
        | Option.none => StepSpec.err PyErr.indexError
        | Option.some idx => StepSpec.tally idx (isCorrect item.2 correct_answer)

/-- Effect of a non-raising iteration on the running tallies. -/

def applySpec (st : LoopState) : StepSpec → LoopState
  | StepSpec.skip => st
  | StepSpec.err _ => st
  | StepSpec.tally idx b =>
    if b then
      { counts := st.counts.set idx (st.counts.getD idx 0 + 1)
        total_correct := st.total_correct + 1
        total_questions := st.total_questions + 1 }
    else { st with total_questions := st.total_questions + 1 }

end OMR

instance exceptDecEq {ε α : Type} [DecidableEq ε] [DecidableEq α] :
    DecidableEq (Except ε α) := fun a b =>
  match a, b with
  | Except.error e, Except.error f =>
    if h : e = f then Decidable.isTrue (by rw [h])
    else Decidable.isFalse (fun hh => h (by injection hh))
  | Except.error _, Except.ok _ => Decidable.isFalse (fun hh => Except.noConfusion hh)
  | Except.ok _, Except.error _ => Decidable.isFalse (fun hh => Except.noConfusion hh)
  | Except.ok x, Except.ok y =>
    if h : x = y then Decidable.isTrue (by rw [h])
    else Decidable.isFalse (fun hh => h (by injection hh))

namespace OMR

/-- `chr(ord('A') + (i % 4))`, the letter pattern of the sample key in
omr_processor.py line 372. -/

def sampleLetter (i : Nat) : Char := Char.ofNat (65 + i % 4)

/-- The sample answer key of omr_processor.py line 372:
`Q1 ↦ chr(ord('A') + 1 % 4), …, Q100 ↦ chr(ord('A') + 100 % 4)`. -/

def sample_answer_key : List (String × Char) :=
  (List.range 100).map (fun i => ("Q" ++ Nat.repr (i + 1), sampleLetter (i + 1)))

/-- A student-answer map marking the `sample_answer_key` letter on every one
of the 100 questions. -/

def all_correct_student : List (String × StudentAnswer) :=
  (List.range 100).map
    (fun i => ("Q" ++ Nat.repr (i + 1), StudentAnswer.ans (sampleLetter (i + 1))))

/-- The scoring loop's final tallies, as a pure fold (valid whenever no
iteration raises). -/

def loopFold (key : List (String × Char))
    (student : List (String × StudentAnswer)) : LoopState :=
  student.foldl (fun s p => applySpec s (stepSpec key p))
    { counts := List.replicate subjects.length 0, total_correct := 0,
      total_questions := 0 }

/-- The item predicate "shared key owned by subject `i` (question numbers
`i*20+1 … i*20+20`) and answered correctly". -/

def ownedCorrect (key : List (String × Char)) (i : Nat)
    (p : String × StudentAnswer) : Bool :=
  match List.lookup p.1 key, pyInt? (removeQ p.1) with
  | Option.some ka, Option.some q =>
    (decide ((i : Int) * 20 + 1 ≤ q) && decide (q ≤ (i : Int) * 20 + 20))
      && isCorrect p.2 ka
  | _, _ => false

end OMR

namespace Utils

/-- The default subject list of `utils.calculate_subject_scores` (utils.py
lines 186–187). -/

def default_subjects : List String :=
  ["Mathematics", "Physics", "Chemistry", "Biology", "English"]

/-- `valid_answers` of `validate_answer_key` (utils.py line 111). -/

def valid_answers : List Char := ['A', 'B', 'C', 'D']

/-- `identify_flagged_questions` (utils.py lines 227–243): flags every
question whose confidence is below the threshold, plus every question
`"1"`..`"100"` that is absent from the student-answer dict or maps to the
empty string, then returns `sorted(set(flagged), key=int)`.  The set is
modeled as `dedup`; the sort by parsed value keeps the count and membership
(Python's set iteration order is unspecified).  `int(q)` failing inside the
sort is the `ValueError` case. -/

def identify_flagged_questions (student_answers : List (String × String))
    (confidence_scores : List (String × ℚ))
    (confidence_threshold : ℚ) : Except PyErr (List String) :=
  let flagged := (confidence_scores.filter
      (fun p => decide (p.2 < confidence_threshold))).map Prod.fst
  let flagged := flagged
    ++ ((List.range 100).map (fun n => Nat.repr (n + 1))).filter
      (fun q_str => match List.lookup q_str student_answers with
        | Option.none => true
        | Option.some a => a == "")
  let uniq := flagged.dedup
  if uniq.all (fun q => (pyInt? q).isSome) then
    Except.ok (uniq.mergeSort
      (fun a b => decide ((pyInt? a).getD 0 ≤ (pyInt? b).getD 0)))
  else Except.error PyErr.valueError

/-- The pre-deduplication flagged list at a given threshold. -/

def flaggedRaw (student_answers : List (String × String))
    (confidence_scores : List (String × ℚ)) (t : ℚ) : List String :=
  (confidence_scores.filter (fun p => decide (p.2 < t))).map Prod.fst
    ++ ((List.range 100).map (fun n => Nat.repr (n + 1))).filter
      (fun q_str => match List.lookup q_str student_answers with
        | Option.none => true
        | Option.some a => a == "")

/-- The validation report of `validate_answer_key` (utils.py lines 146–152).
The float-formatted percentage inside the warning texts is elided; the
warning entries themselves (one per skewed letter) are kept. -/

structure Validation where
  valid : Bool
  errors : List String
  warnings : List String
  answer_distribution : List (Char × Nat)
  total_questions : Nat
deriving DecidableEq, Repr

/-- `validate_answer_key` (utils.py lines 101–152): errors for a wrong entry
count, a malformed or out-of-range question number, a value outside
`{A, B, C, D}` and missing question numbers; distribution skew (over 40% or
under 15% of one letter) adds warnings only.  `valid` is `errors == []`. -/

def validate_answer_key (answer_key : List (String × Char))
    (total_questions : Nat) : Validation :=
  let count_errors : List String :=
    if answer_key.length ≠ total_questions then
      ["Expected " ++ Nat.repr total_questions ++ " answers, got "
        ++ Nat.repr answer_key.length]
    else []
  let entry_errors : List String := answer_key.flatMap (fun p =>
    (match pyInt? p.1 with
     | Option.some q_int =>
        if q_int < 1 ∨ (total_questions : Int) < q_int then
          ["Question number " ++ p.1 ++ " out of range"]
        else []
     | Option.none => ["Invalid question number format: " ++ p.1])
    ++ (if p.2 ∈ valid_answers then []
        else ["Invalid answer for question " ++ p.1 ++ ". Must be A, B, C, or D"]))
  let expected_questions : List String :=
    (List.range total_questions).map (fun i => Nat.repr (i + 1))
  let missing_questions : List String :=
    expected_questions.filter (fun q => ¬ (answer_key.map Prod.fst).contains q)
  let missing_errors : List String :=
    if missing_questions.isEmpty then [] else ["Missing answers for questions"]
  let answer_counts : List (Char × Nat) :=
    (valid_answers.filter (fun a => (answer_key.map Prod.snd).contains a)).map
      (fun a => (a, (answer_key.map Prod.snd).count a))
  let total_valid : Nat := (answer_counts.map Prod.snd).sum
  let warnings : List String := answer_counts.flatMap (fun ac =>
    if 40 < (ac.2 : ℚ) / (total_valid : ℚ) * 100 then
      ["Answer appears unusually often"]
    else if (ac.2 : ℚ) / (total_valid : ℚ) * 100 < 15 then
      ["Answer appears unusually rarely"]
    else [])
  { valid := (count_errors ++ entry_errors ++ missing_errors).isEmpty
    errors := count_errors ++ entry_errors ++ missing_errors
    warnings := warnings
    answer_distribution := answer_counts
    total_questions := answer_key.length }

end Utils

/-- The canonical bare-numeric question-id strings `"1"`..`"100"`. -/

def expected100 : List String := (List.range 100).map (fun n => Nat.repr (n + 1))

namespace Utils

/-- One subject entry of `utils.calculate_subject_scores`. -/

structure SubjectScore where
  score : Nat
  total : Nat
  percentage : ℚ
deriving DecidableEq, Repr

/-- The result dict of `utils.calculate_subject_scores` (utils.py lines
219–224). -/

structure Scores where
  subject_scores : List (String × SubjectScore)
  total_score : Nat
  total_questions : Nat
  overall_percentage : ℚ
deriving DecidableEq, Repr

/-- The inner question loop of `utils.calculate_subject_scores` (utils.py
lines 198–206): `(correct_count, subject_total)` accumulated over
`range(start_q, start_q + k)`; a question counts only when its bare numeric
id is a key of both dicts, and correctness is exact equality. -/

def subjectTally (student_answers correct_answers : List (String × Char))
    (start_q k : Nat) : Nat × Nat :=
  ((List.range k).map (fun j => start_q + j)).foldl
    (fun acc q_num =>
      match List.lookup (Nat.repr q_num) student_answers,
          List.lookup (Nat.repr q_num) correct_answers with
      | Option.some s, Option.some c =>
        ((if s == c then acc.1 + 1 else acc.1), acc.2 + 1)
      | _, _ => acc)
    (0, 0)

/-- `utils.calculate_subject_scores` (utils.py lines 181–224) at its default
configuration (the 5 default subjects, 20 questions per subject): exact-match
comparison of single-letter answers; `total_score` is the plain count of
correct answers. -/

def calculate_subject_scores
    (student_answers correct_answers : List (String × Char)) : Scores :=
  let questions_per_subject : Nat := 20
  let entries := default_subjects.enum.map (fun e =>
    let tally := subjectTally student_answers correct_answers
      (e.1 * questions_per_subject + 1) questions_per_subject
    (e.2, ({ score := tally.1, total := tally.2
             percentage := if 0 < tally.2 then
               (tally.1 : ℚ) / (tally.2 : ℚ) * 100 else 0 } : SubjectScore)))
  let total_correct := (entries.map (fun e => e.2.score)).sum
  let total_questions := (entries.map (fun e => e.2.total)).sum
  { subject_scores := entries
    total_score := total_correct
    total_questions := total_questions
    overall_percentage := if 0 < total_questions then
      (total_correct : ℚ) / (total_questions : ℚ) * 100 else 0 }

/-- "Question `q` is a key of both dicts and answered correctly"
(utils.py lines 203–206). -/

def bothCorrect (student_answers correct_answers : List (String × Char))
    (q : Nat) : Bool :=
  match List.lookup (Nat.repr q) student_answers,
      List.lookup (Nat.repr q) correct_answers with
  | Option.some s, Option.some c => s == c
  | _, _ => false

end Utils

/-! ### The processing pipeline (omr_processor.py lines 132–326)

The image-processing stages (`ImageProcessor`, `BubbleDetector`) live in
modules outside this repository snapshot; the pipeline's control flow is
verified for every behaviour of those stages, which enter as the `Stages`
record below.  cv2 side effects (imwrite) are modeled as path assignments,
and a cv2 drawing call enters as an oracle that may fail. -/

/-- An image: a grayscale or colour (BGR) pixel matrix; `len(image.shape)`
distinguishes the two in the Python code (line 137). -/

inductive Image : Type
  | gray : List (List Nat) → Image
  | color : List (List (Nat × Nat × Nat)) → Image
deriving DecidableEq, Repr

/-- `cv2.cvtColor(img, cv2.COLOR_GRAY2BGR)`: replicate the single channel. -/

def cvtColorGray2BGR (px : List (List Nat)) : Image :=
  Image.color (px.map (fun row => row.map (fun v => (v, v, v))))

/-- A detected bubble: circular `(x, y, r)` or rectangular `(x, y, w, h)`
(the code distinguishes them by `len(bubble) == 3`, line 179). -/

inductive Bubble : Type
  | circle : Int → Int → Int → Bubble
  | rect : Int → Int → Int → Int → Bubble
deriving DecidableEq, Repr

/-- One entry of a grid row: the bubble geometry and its stable index into
the flattened detection order. -/

structure BubbleInfo where
  bubble : Bubble
  index : Nat
deriving DecidableEq, Repr

/-- `bubble_results["grid_structure"]`: ordered rows of bubbles. -/

structure GridStructure where
  rows : List (List BubbleInfo)
deriving DecidableEq, Repr

/-- The output dict of `detect_and_classify_bubbles`. -/

structure BubbleResults where
  bubbles_detected : Nat
  grid_structure : Option GridStructure
  classifications : List Bool
  confidence_scores : List ℚ
deriving DecidableEq, Repr

/-- One cv2 drawing primitive issued by `create_overlay_image`. -/

inductive DrawCmd : Type
  | circle : Int → Int → Int → (Nat × Nat × Nat) → Int → DrawCmd
  | rectangle : Int → Int → Int → Int → (Nat × Nat × Nat) → Int → DrawCmd
  | putText : String → Int → Int → DrawCmd
deriving DecidableEq, Repr

/-- `row[i:i+options_per_question]` slices of one row (the
`for i in range(0, len(row), options_per_question)` loop, line 153). -/

def chunks {α : Type} (k : Nat) : List α → List (List α)
  | [] => []
  | a :: t => (a :: t.take (k - 1)) :: chunks k (t.drop (k - 1))
termination_by l => l.length
decreasing_by
  simp only [List.length_cons, List.length_drop]
  omega

/-- Colour and thickness of one bubble outline (lines 164–176): green/3 for
filled, red/1 for unfilled, gray/1 when the index is beyond the
classification list. -/

def bubbleStyle (classifications : List Bool) (bi : BubbleInfo) :
    (Nat × Nat × Nat) × Int :=
  if bi.index < classifications.length then
    if classifications.getD bi.index false then ((0, 255, 0), 3)
    else ((255, 0, 0), 1)
  else ((128, 128, 128), 1)

/-- The cv2 call drawing one bubble outline (lines 178–184). -/

def bubbleCmd (classifications : List Bool) (bi : BubbleInfo) : DrawCmd :=
  match bi.bubble with
  | Bubble.circle x y r =>
    DrawCmd.circle x y r (bubbleStyle classifications bi).1
      (bubbleStyle classifications bi).2
  | Bubble.rect x y w h =>
    DrawCmd.rectangle x y w h (bubbleStyle classifications bi).1
      (bubbleStyle classifications bi).2

/-- The question-number label anchored to a group's first bubble
(lines 186–195). -/

def labelCmd (question_num : Nat) (bi : BubbleInfo) : DrawCmd :=
  match bi.bubble with
  | Bubble.circle x y _ => DrawCmd.putText ("Q" ++ Nat.repr question_num) (x - 30) y
  | Bubble.rect x y _ h =>
    DrawCmd.putText ("Q" ++ Nat.repr question_num) (x - 30) (y + h.fdiv 2)

/-- Drawing commands for one full question group. -/

def groupCmds (classifications : List Bool) (question_num : Nat)
    (g : List BubbleInfo) : List DrawCmd :=
  g.map (bubbleCmd classifications) ++
    (match g with
     | [] => []
     | b0 :: _ => [labelCmd question_num b0])

/-- Commands for the groups of one row; a short group is skipped without
advancing the question number (the `continue` at line 157 skips the
increment at line 197). -/

def groupsCmds (classifications : List Bool) :
    List (List BubbleInfo) → Nat → List DrawCmd × Nat
  | [], qn => ([], qn)
  | g :: gs, qn =>
    if g.length < 4 then groupsCmds classifications gs qn
    else
      let rest := groupsCmds classifications gs (qn + 1)
      (groupCmds classifications qn g ++ rest.1, rest.2)

/-- Commands for all rows, numbering questions sequentially from 1 in
row-major order. -/

def overlayCmds (classifications : List Bool) :
    List (List BubbleInfo) → Nat → List DrawCmd
  | [], _ => []
  | row :: rest, qn =>
    let rc := groupsCmds classifications (chunks 4 row) qn
    rc.1 ++ overlayCmds classifications rest rc.2

/-- Run the drawing commands through the cv2 oracle; a failing call aborts
the loop and the `except` branch (lines 201–203) returns the overlay as
mutated so far. -/

def runDraw (draw : Image → DrawCmd → Except String Image) :
    Image → List DrawCmd → Image
  | img, [] => img
  | img, c :: cs =>
    match draw img c with
    | Except.ok img2 => runDraw draw img2 cs
    | Except.error _ => img

/-- The unannotated base overlay (lines 136–140): a copy of the original,
converted grayscale → BGR when it has a single channel. -/

def baseOverlay : Image → Image
  | Image.gray px => cvtColorGray2BGR px
  | Image.color px => Image.color px

/-- `OMRProcessor.create_overlay_image` (omr_processor.py lines 132–203),
parametric in the cv2 drawing primitive `draw` (which may fail — everything
from line 145 runs inside `try`).  `student_answers` is accepted and, as in
the source, never used by the drawing code. -/

def create_overlay_image (draw : Image → DrawCmd → Except String Image)
    (original_image : Image) (bubble_results : BubbleResults)
    (student_answers : List (String × StudentAnswer)) : Image :=
  let overlay := baseOverlay original_image
  match bubble_results.grid_structure with
  | Option.none => overlay
  | Option.some grid =>
    if grid.rows.isEmpty then overlay
    else runDraw draw overlay (overlayCmds bubble_results.classifications grid.rows 1)

/-- The output of `map_bubbles_to_answers`. -/

structure AnswerMapping where
  answers : List (String × StudentAnswer)
  flagged_questions : List String
deriving DecidableEq, Repr

/-- The stages implemented outside this repository snapshot
(image_processor.py, bubble_detector.py, cv2): the pipeline's control flow is
verified for every behaviour of them; `Except.error` models the stage
raising. -/

structure Stages where
  preprocess : String → Except String (Image × String)
  detect_and_classify : Image → Except String BubbleResults
  map_bubbles_to_answers :
    Option GridStructure → List Bool → Except String AnswerMapping
  load_image : String → Except String Image
  draw : Image → DrawCmd → Except String Image

/-- `detect_sheet_version` (omr_processor.py lines 48–55): a stub that
always returns version "A". -/

def detect_sheet_version (_image : Image) : String := "A"

/-- The declared version, or the stub-detected one (lines 241–243). -/

def effectiveVersion (sheet_version : Option String)
    (processed_image : Image) : String :=
  match sheet_version with
  | Option.some v => v
  | Option.none => detect_sheet_version processed_image

/-- `results["confidence_metrics"]` (lines 277–284), computed only when the
confidence list is nonempty. -/

structure ConfidenceMetrics where
  average_confidence : ℚ
  min_confidence : ℚ
  max_confidence : ℚ
  low_confidence_count : Nat
deriving DecidableEq, Repr

def confidenceMetrics : List ℚ → Option ConfidenceMetrics
  | [] => Option.none
  | c :: cs => Option.some
      { average_confidence := (c :: cs).sum / (((c :: cs).length : Nat) : ℚ)
        min_confidence := cs.foldl min c
        max_confidence := cs.foldl max c
        low_confidence_count := (c :: cs).countP (fun x => decide (x < 7 / 10)) }

/-- `results["scores"]`: untouched, a score dict, or the explicit error
payload `{"error": ...}` of line 274. -/

inductive ScoresField : Type
  | empty : ScoresField
  | ok : OMR.Scores → ScoresField
  | error : String → ScoresField
deriving DecidableEq, Repr

/-- The `results` dict of `process_omr_sheet` (omr_processor.py lines
208–225).  File-path side effects are kept as path strings. -/

structure ProcResult where
  success : Bool
  student_id : Option String
  sheet_version : Option String
  processing_info : Option String
  bubble_detection : Option BubbleResults
  student_answers : List (String × StudentAnswer)
  scores : ScoresField
  flagged_questions : List String
  confidence_metrics : Option ConfidenceMetrics
  original_path : String
  processed_path : Option String
  overlay_path : Option String
  error_message : Option String
deriving DecidableEq, Repr

/-- `str(e)` of the exceptions `calculate_subject_scores` raises (the text
cv2/Python produces; only its presence matters to the callers). -/

def pyErrMessage : PyErr → String
  | PyErr.valueError => "invalid literal for int() with base 10"
  | PyErr.indexError => "list index out of range"

/-- The `except` branch of `process_omr_sheet` (lines 303–307): the error
message is recorded on the results accumulated so far, `success` stays
`False`, and the result dict is RETURNED, not raised. -/

def failWith (r : ProcResult) (e : String) : ProcResult :=
  { r with error_message := Option.some ("Error processing OMR sheet: " ++ e)
           success := false }

/-- `OMRProcessor.process_omr_sheet` (omr_processor.py lines 205–309): the
complete pipeline with every `raise` point inside the `try` routed to the
`except` branch (`failWith`), keeping the fields populated before the
failure. -/

def process_omr_sheet (st : Stages)
    (answer_keys : List (String × List (String × Char)))
    (image_path : String) (sheet_version : Option String)
    (student_id : Option String) : ProcResult :=
  let results0 : ProcResult :=
    { success := false
      student_id := student_id
      sheet_version := sheet_version
      processing_info := Option.none
      bubble_detection := Option.none
      student_answers := []
      scores := ScoresField.empty
      flagged_questions := []
      confidence_metrics := Option.none
      original_path := image_path
      processed_path := Option.none
      overlay_path := Option.none
      error_message := Option.none }
  match st.preprocess image_path with
  | Except.error e => failWith results0 e
  | Except.ok (processed_image, processing_info) =>
    let results1 := { results0 with
      processing_info := Option.some processing_info
      processed_path := Option.some (image_path ++ "_processed") }
    let version := effectiveVersion sheet_version processed_image
    let results2 := if sheet_version.isNone then
        { results1 with sheet_version := Option.some version }
      else results1
    match st.detect_and_classify processed_image with
    | Except.error e => failWith results2 e
    | Except.ok bubble_results =>
      let results3 := { results2 with bubble_detection := Option.some bubble_results }
      if bubble_results.bubbles_detected = 0 then
        failWith results3 "No bubbles detected in the image"
      else
        match st.map_bubbles_to_answers bubble_results.grid_structure
            bubble_results.classifications with
        | Except.error e => failWith results3 e
        | Except.ok answer_mapping =>
          let results4 := { results3 with
            student_answers := answer_mapping.answers
            flagged_questions := answer_mapping.flagged_questions }
          let afterScores : Except PyErr ProcResult :=
            match List.lookup version answer_keys with
            | Option.some correct_answers =>
              match OMR.calculate_subject_scores answer_mapping.answers
                  correct_answers with
              | Except.error e => Except.error e
              | Except.ok scores =>
                Except.ok { results4 with scores := ScoresField.ok scores }
            | Option.none =>
              let msg := "No answer key for version " ++ version
              Except.ok { results4 with scores := ScoresField.error msg }
          match afterScores with
          | Except.error e => failWith results4 (pyErrMessage e)
          | Except.ok results5 =>
            let results6 := match confidenceMetrics bubble_results.confidence_scores with
              | Option.some m => { results5 with confidence_metrics := Option.some m }
              | Option.none => results5
            match st.load_image image_path with
            | Except.error e => failWith results6 e
            | Except.ok original_image =>
              let _overlay := create_overlay_image st.draw original_image
                bubble_results answer_mapping.answers
              let results7 := { results6 with
                overlay_path := Option.some (image_path ++ "_overlay") }
              { results7 with success := true }

/-- `sheet_versions[i] if sheet_versions and i < len(sheet_versions) else
None` (omr_processor.py lines 318–319; `None` and the empty list are both
falsy). -/

def pyOptIndex (l : Option (List String)) (i : Nat) : Option String :=
  match l with
  | Option.none => Option.none
  | Option.some xs => if xs.isEmpty then Option.none else xs[i]?

/-- `batch_process_omr_sheets` (omr_processor.py lines 311–326): one
`process_omr_sheet` call per input path, appending every result. -/

def batch_process_omr_sheets (st : Stages)
    (answer_keys : List (String × List (String × Char)))
    (image_paths : List String) (sheet_versions : Option (List String))
    (student_ids : Option (List String)) : List ProcResult :=
  image_paths.enum.map (fun e =>
    process_omr_sheet st answer_keys e.2
      (pyOptIndex sheet_versions e.1) (pyOptIndex student_ids e.1))

/-- A concrete stage set whose detector finds zero bubbles. -/

def zeroBubbleStages : Stages :=
  { preprocess := fun _ => Except.ok (Image.gray [[0]], "deskewed")
    detect_and_classify := fun _ => Except.ok
      { bubbles_detected := 0, grid_structure := Option.none,
        classifications := [], confidence_scores := [] }
    map_bubbles_to_answers := fun _ _ =>
      Except.ok { answers := [], flagged_questions := [] }
    load_image := fun _ => Except.ok (Image.gray [[0]])
    draw := fun img _ => Except.ok img }

/-- A concrete stage set detecting one (unclassified) bubble, used at a
version with no configured key. -/

def oneBubbleStages : Stages :=
  { preprocess := fun _ => Except.ok (Image.gray [[0]], "deskewed")
    detect_and_classify := fun _ => Except.ok
      { bubbles_detected := 1
        grid_structure := Option.some { rows := [[{ bubble := Bubble.circle 0 0 1, index := 0 }]] }
        classifications := [true], confidence_scores := [1] }
    map_bubbles_to_answers := fun _ _ =>
      Except.ok { answers := [("Q1", StudentAnswer.ans 'A')], flagged_questions := [] }
    load_image := fun _ => Except.ok (Image.gray [[0]])
    draw := fun img _ => Except.ok img }

/-! ### Theorems

Helper lemmas first (decimal-printing round-trips, loop characterizations),
then the claim theorems C1–C10 with their witnesses and counterexamples
interleaved where they belong. -/

/-! ### Decimal printing round-trips through the decimal parser

Python `str(i)` and Lean `Nat.repr` print the same decimal digit runs; these
lemmas let proofs over question-id strings `"1"`..`"100"` recover the
underlying numbers, and give injectivity of decimal printing. -/

theorem toDigitsCore_append (b : Nat) :
    ∀ (fuel n : Nat) (ds : List Char),
      Nat.toDigitsCore b fuel n ds = Nat.toDigitsCore b fuel n [] ++ ds := by
  intro fuel
  induction fuel with
  | zero => intro n ds; simp [Nat.toDigitsCore]
  | succ f ih =>
    intro n ds
    simp only [Nat.toDigitsCore]
    by_cases h : n / b = 0
    · simp [h]
    · simp only [if_neg h]
      rw [ih (n / b) (Nat.digitChar (n % b) :: ds), ih (n / b) [Nat.digitChar (n % b)]]
      simp

theorem toDigitsCore_fuel (b : Nat) (hb : 2 ≤ b) :
    ∀ (fuel fuel' n : Nat), n < fuel → n < fuel' →
      Nat.toDigitsCore b fuel n [] = Nat.toDigitsCore b fuel' n [] := by
  intro fuel
  induction fuel with
  | zero => intro fuel' n h; omega
  | succ f ih =>
    intro fuel' n h h'
    cases fuel' with
    | zero => omega
    | succ f' =>
      simp only [Nat.toDigitsCore]
      by_cases hz : n / b = 0
      · simp [hz]
      · simp only [if_neg hz]
        rw [toDigitsCore_append b f, toDigitsCore_append b f']
        have hn : 0 < n := by
          rcases Nat.eq_zero_or_pos n with h0 | h0
          · exfalso; apply hz; rw [h0]; simp
          · exact h0
        have hlt : n / b < n := Nat.div_lt_self hn (by omega)
        rw [ih f' (n / b) (by omega) (by omega)]

theorem digitChar_isDigit {d : Nat} (h : d < 10) : (Nat.digitChar d).isDigit = true := by
  interval_cases d <;> decide

theorem digitChar_sub48 {d : Nat} (h : d < 10) : (Nat.digitChar d).toNat - 48 = d := by
  interval_cases d <;> decide

theorem foldl_dig_append (c : Char) (hc : c.isDigit = true) :
    ∀ (cs : List Char) (acc m : Nat),
      cs.foldlM (fun acc c =>
        if c.isDigit then Option.some (acc * 10 + (c.toNat - 48)) else Option.none) acc
        = Option.some m →
      (cs ++ [c]).foldlM (fun acc c =>
        if c.isDigit then Option.some (acc * 10 + (c.toNat - 48)) else Option.none) acc
        = Option.some (m * 10 + (c.toNat - 48)) := by
  intro cs
  induction cs with
  | nil =>
    intro acc m h
    simp only [List.foldlM_nil, Option.pure_def, Option.some.injEq] at h
    simp [h, hc]
  | cons c0 t ih =>
    intro acc m h
    simp only [List.cons_append, List.foldlM_cons] at h ⊢
    by_cases h0 : c0.isDigit
    · simp only [if_pos h0] at h ⊢
      simp only [Option.bind_eq_bind, Option.some_bind] at h ⊢
      exact ih _ m h
    · simp [if_neg h0] at h

theorem foldl_dig_all_digits :
    ∀ (cs : List Char) (acc m : Nat),
      cs.foldlM (fun acc c =>
        if c.isDigit then Option.some (acc * 10 + (c.toNat - 48)) else Option.none) acc
        = Option.some m →
      ∀ c ∈ cs, c.isDigit = true := by
  intro cs
  induction cs with
  | nil => intro acc m _ c hc; simp at hc
  | cons c0 t ih =>
    intro acc m h c hc
    simp only [List.foldlM_cons] at h
    by_cases h0 : c0.isDigit
    · simp only [if_pos h0, Option.some_bind] at h
      rcases List.mem_cons.mp hc with rfl | hmem
      · exact h0
      · exact ih _ m h c hmem
    · simp [if_neg h0] at h

theorem decDigitsVal_append_digit {cs : List Char} {m : Nat} {c : Char}
    (hc : c.isDigit = true) (h : decDigitsVal? cs = Option.some m) :
    decDigitsVal? (cs ++ [c]) = Option.some (m * 10 + (c.toNat - 48)) := by
  rcases cs with _ | ⟨c0, t⟩
  · simp [decDigitsVal?] at h
  · unfold decDigitsVal? at h ⊢
    simp only [List.isEmpty_cons, List.cons_append, Bool.false_eq_true, if_false] at h ⊢
    exact foldl_dig_append c hc (c0 :: t) 0 m h

theorem decDigitsVal_toDigits (n : Nat) :
    decDigitsVal? (Nat.toDigits 10 n) = Option.some n := by
  induction n using Nat.strong_induction_on with
  | _ n ih =>
    by_cases h : n / 10 = 0
    · have hn : n < 10 := by omega
      have hmod : n % 10 = n := Nat.mod_eq_of_lt hn
      unfold Nat.toDigits
      simp only [Nat.toDigitsCore, h, if_pos, hmod]
      interval_cases n <;> decide
    · have hpos : 0 < n := by omega
      have hdiv : n / 10 < n := Nat.div_lt_self hpos (by omega)
      have h1 : Nat.toDigits 10 n
          = Nat.toDigits 10 (n / 10) ++ [Nat.digitChar (n % 10)] := by
        unfold Nat.toDigits
        conv_lhs => rw [Nat.toDigitsCore]
        simp only [if_neg h]
        rw [toDigitsCore_append 10 n (n / 10) [Nat.digitChar (n % 10)]]
        rw [toDigitsCore_fuel 10 (by omega) n (n / 10 + 1) (n / 10) (by omega) (by omega)]
      rw [h1]
      have hlt : n % 10 < 10 := Nat.mod_lt n (by omega)
      rw [decDigitsVal_append_digit (digitChar_isDigit hlt) (ih (n / 10) hdiv)]
      rw [digitChar_sub48 hlt]
      congr 1
      omega

theorem repr_data (n : Nat) : (Nat.repr n).data = Nat.toDigits 10 n := rfl

theorem natRepr_inj {m n : Nat} (h : Nat.repr m = Nat.repr n) : m = n := by
  have hd : Nat.toDigits 10 m = Nat.toDigits 10 n := by
    rw [← repr_data, ← repr_data, h]
  have hm := decDigitsVal_toDigits m
  rw [hd, decDigitsVal_toDigits n] at hm
  exact (Option.some.injEq _ _).mp hm.symm

theorem toDigits_ne_nil (n : Nat) : Nat.toDigits 10 n ≠ [] := by
  intro h
  have := decDigitsVal_toDigits n
  rw [h] at this
  simp [decDigitsVal?] at this

theorem toDigits_all_digits (n : Nat) : ∀ c ∈ Nat.toDigits 10 n, c.isDigit = true := by
  have h := decDigitsVal_toDigits n
  unfold decDigitsVal? at h
  by_cases he : (Nat.toDigits 10 n).isEmpty
  · simp [he] at h
  · simp only [he, Bool.false_eq_true, if_false] at h
    exact foldl_dig_all_digits _ 0 n h

theorem isDigit_ne_dash {c : Char} (h : c.isDigit = true) : c ≠ '-' := by
  intro e; rw [e] at h; exact absurd h (by decide)

theorem isDigit_ne_plus {c : Char} (h : c.isDigit = true) : c ≠ '+' := by
  intro e; rw [e] at h; exact absurd h (by decide)

theorem isDigit_ne_Q {c : Char} (h : c.isDigit = true) : c ≠ 'Q' := by
  intro e; rw [e] at h; exact absurd h (by decide)

theorem pyInt_repr (n : Nat) : pyInt? (Nat.repr n) = Option.some (n : Int) := by
  unfold pyInt?
  rw [repr_data]
  rcases hd : Nat.toDigits 10 n with _ | ⟨c, t⟩
  · exact absurd hd (toDigits_ne_nil n)
  · have hc : c.isDigit = true := toDigits_all_digits n c (hd ▸ List.mem_cons_self c t)
    simp only [pyIntOfChars?]
    rw [if_neg (isDigit_ne_dash hc), if_neg (isDigit_ne_plus hc)]
    rw [← hd, decDigitsVal_toDigits n]
    rfl

theorem removeQ_repr (n : Nat) : removeQ (Nat.repr n) = Nat.repr n := by
  unfold removeQ
  have : (Nat.repr n).data.filter (fun c => c ≠ 'Q') = (Nat.repr n).data := by
    rw [List.filter_eq_self]
    intro c hc
    exact decide_eq_true (isDigit_ne_Q (toDigits_all_digits n c (repr_data n ▸ hc)))
  rw [this]
  rfl

theorem pyInt_removeQ_repr (n : Nat) :
    pyInt? (removeQ (Nat.repr n)) = Option.some (n : Int) := by
  rw [removeQ_repr, pyInt_repr]

theorem removeQ_Q_append (s : String) : removeQ ("Q" ++ s) = removeQ s := by
  unfold removeQ
  have : ("Q" ++ s).data = 'Q' :: s.data := by
    have h := String.data_append "Q" s
    simp only [h]
    rfl
  rw [this]
  simp [List.filter_cons]

/-- `Except.ok` is a left unit for bind. -/

theorem okBind {ε α β : Type} (a : α) (f : α → Except ε β) :
    (Except.ok a >>= f : Except ε β) = f a := rfl

namespace OMR

theorem scoreStep_eq (key : List (String × Char)) (st : LoopState)
    (item : String × StudentAnswer) :
    scoreStep key st item =
      match stepSpec key item with
      | StepSpec.err e => Except.error e
      | s => Except.ok (applySpec st s) := by
  unfold scoreStep stepSpec
  cases hl : List.lookup item.1 key with
  | none => rfl
  | some ka =>
    cases hp : pyInt? (removeQ item.1) with
    | none => rfl
    | some q =>
      by_cases hge : (subjects.length : Int) ≤ (q - 1).fdiv (questions_per_subject : Int)
      · simp only [if_pos hge]; rfl
      · simp only [if_neg hge]
        cases hi : pyIndex? subjects.length ((q - 1).fdiv (questions_per_subject : Int)) with
        | none => rfl
        | some idx =>
          by_cases hc : isCorrect item.2 ka
          · simp [applySpec, hc]
          · simp [applySpec, hc]

/-- A successful Python index resolution lands strictly inside the list. -/

theorem pyIndex?_some {len : Nat} {i : Int} {j : Nat}
    (h : pyIndex? len i = Option.some j) : j < len := by
  simp only [pyIndex?] at h
  by_cases hneg : i < 0
  · rw [if_pos hneg] at h
    by_cases hc : ((len : Int) + i < 0 ∨ (len : Int) ≤ (len : Int) + i)
    · rw [if_pos hc] at h; exact absurd h (by simp)
    · rw [if_neg hc] at h
      have := (Option.some.injEq _ _).mp h
      omega
  · rw [if_neg hneg] at h
    by_cases hc : (i < 0 ∨ (len : Int) ≤ i)
    · rw [if_pos hc] at h; exact absurd h (by simp)
    · rw [if_neg hc] at h
      have := (Option.some.injEq _ _).mp h
      omega

/-- A tally step always targets a real subject slot. -/

theorem stepSpec_tally_lt {key : List (String × Char)} {p : String × StudentAnswer}
    {idx : Nat} {b : Bool} (h : stepSpec key p = StepSpec.tally idx b) :
    idx < subjects.length := by
  unfold stepSpec at h
  cases hl : List.lookup p.1 key with
  | none => simp [hl] at h
  | some ka =>
    simp only [hl] at h
    cases hp : pyInt? (removeQ p.1) with
    | none => simp [hp] at h
    | some q =>
      simp only [hp] at h
      by_cases hge : (subjects.length : Int) ≤ (q - 1).fdiv (questions_per_subject : Int)
      · simp [if_pos hge] at h
      · simp only [if_neg hge] at h
        cases hi : pyIndex? subjects.length ((q - 1).fdiv (questions_per_subject : Int)) with
        | none => simp [hi] at h
        | some j =>
          simp only [hi] at h
          have hj := pyIndex?_some hi
          have hinj := (StepSpec.tally.injEq _ _ _ _).mp h
          omega

/-- With no raising iteration, the effectful loop is the pure fold of
`applySpec` over `stepSpec`. -/

theorem foldlM_scoreStep_ok (key : List (String × Char)) :
    ∀ (l : List (String × StudentAnswer)),
      (∀ p ∈ l, ∀ e, stepSpec key p ≠ StepSpec.err e) →
      ∀ st : LoopState,
        l.foldlM (scoreStep key) st =
          Except.ok (l.foldl (fun s p => applySpec s (stepSpec key p)) st) := by
  intro l
  induction l with
  | nil => intro _ st; rfl
  | cons p t ih =>
    intro h st
    rw [List.foldlM_cons, scoreStep_eq, List.foldl_cons]
    have hrest := fun q hq e => h q (List.mem_cons_of_mem p hq) e
    cases hs : stepSpec key p with
    | err e => exact absurd hs (h p (List.mem_cons_self p t) e)
    | skip => rw [okBind]; exact ih hrest _
    | tally idx b => rw [okBind]; exact ih hrest _

/-- `Except.error` is absorbing for bind. -/

theorem errBind {ε α β : Type} (e : ε) (f : α → Except ε β) :
    (Except.error e >>= f : Except ε β) = Except.error e := rfl

/-- Effect of one non-raising iteration on the tallies list length: none. -/

theorem applySpec_counts_length (st : LoopState) (s : StepSpec) :
    (applySpec st s).counts.length = st.counts.length := by
  cases s with
  | skip => rfl
  | err e => rfl
  | tally idx b => cases b <;> simp [applySpec]

/-- The loop never changes the number of subject slots. -/

theorem foldlM_scoreStep_length (key : List (String × Char)) :
    ∀ (l : List (String × StudentAnswer)) (st0 st : LoopState),
      l.foldlM (scoreStep key) st0 = Except.ok st →
      st.counts.length = st0.counts.length := by
  intro l
  induction l with
  | nil =>
    intro st0 st h
    have : st0 = st := by
      have := (Except.ok.injEq _ _).mp h
      exact this
    rw [← this]
  | cons p t ih =>
    intro st0 st h
    rw [List.foldlM_cons, scoreStep_eq] at h
    cases hs : stepSpec key p with
    | err e => rw [hs] at h; rw [errBind] at h; exact absurd h (by simp)
    | skip =>
      rw [hs, okBind] at h
      exact ih _ _ h
    | tally idx b =>
      rw [hs, okBind] at h
      rw [ih _ _ h]
      exact applySpec_counts_length st0 (StepSpec.tally idx b)

/-- Reading a bumped slot list. -/

theorem getD_set_nat (l : List Nat) (j v i : Nat) (hj : j < l.length) :
    (l.set j v).getD i 0 = if i = j then v else l.getD i 0 := by
  by_cases h : i = j
  · subst h
    simp [List.getD_eq_getElem?_getD, List.getElem?_set_self hj]
  · simp [List.getD_eq_getElem?_getD, List.getElem?_set_ne (fun hh => h hh.symm)]
    rw [if_neg h]

/-- Bumping a slot inside the list raises the sum by one. -/

theorem sum_set_add_one (l : List Nat) (j : Nat) (hj : j < l.length) :
    (l.set j (l.getD j 0 + 1)).sum = l.sum + 1 := by
  induction l generalizing j with
  | nil => simp at hj
  | cons a t ih =>
    cases j with
    | zero => simp [List.getD_cons_zero]; omega
    | succ j' =>
      simp only [List.set_cons_succ, List.getD_cons_succ, List.sum_cons]
      rw [ih j' (by simpa using hj)]
      omega

/-- Running total of correct answers after the pure loop. -/

theorem foldl_tally_total_correct (key : List (String × Char))
    (l : List (String × StudentAnswer)) :
    ∀ st : LoopState,
      (l.foldl (fun s p => applySpec s (stepSpec key p)) st).total_correct
        = st.total_correct + l.countP (fun p =>
            match stepSpec key p with
            | StepSpec.tally _ b => b
            | _ => false) := by
  induction l with
  | nil => intro st; simp
  | cons p t ih =>
    intro st
    rw [List.foldl_cons, List.countP_cons, ih]
    have hstep : (applySpec st (stepSpec key p)).total_correct
        = st.total_correct + (if (match stepSpec key p with
            | StepSpec.tally _ b => b
            | _ => false) = true then 1 else 0) := by
      cases hs : stepSpec key p with
      | skip => simp [applySpec]
      | err e => simp [applySpec]
      | tally idx b => cases b <;> simp [applySpec]
    rw [hstep]
    omega

/-- Running total of attributed questions after the pure loop. -/

theorem foldl_tally_total_questions (key : List (String × Char))
    (l : List (String × StudentAnswer)) :
    ∀ st : LoopState,
      (l.foldl (fun s p => applySpec s (stepSpec key p)) st).total_questions
        = st.total_questions + l.countP (fun p =>
            match stepSpec key p with
            | StepSpec.tally _ _ => true
            | _ => false) := by
  induction l with
  | nil => intro st; simp
  | cons p t ih =>
    intro st
    rw [List.foldl_cons, List.countP_cons, ih]
    have hstep : (applySpec st (stepSpec key p)).total_questions
        = st.total_questions + (if (match stepSpec key p with
            | StepSpec.tally _ _ => true
            | _ => false) = true then 1 else 0) := by
      cases hs : stepSpec key p with
      | skip => simp [applySpec]
      | err e => simp [applySpec]
      | tally idx b => cases b <;> simp [applySpec]
    rw [hstep]
    omega

/-- One subject slot after the pure loop: its correct tally counts exactly the
items attributed to it and scored correct. -/

theorem foldl_tally_counts_getD (key : List (String × Char))
    (l : List (String × StudentAnswer)) (i : Nat) :
    ∀ st : LoopState, st.counts.length = subjects.length →
      (l.foldl (fun s p => applySpec s (stepSpec key p)) st).counts.getD i 0
        = st.counts.getD i 0 + l.countP (fun p =>
            match stepSpec key p with
            | StepSpec.tally j b => b && (j == i)
            | _ => false) := by
  induction l with
  | nil => intro st _; simp
  | cons p t ih =>
    intro st hlen
    rw [List.foldl_cons, List.countP_cons,
      ih _ (by rw [applySpec_counts_length]; exact hlen)]
    have hstep : (applySpec st (stepSpec key p)).counts.getD i 0
        = st.counts.getD i 0 + (if (match stepSpec key p with
            | StepSpec.tally j b => b && (j == i)
            | _ => false) = true then 1 else 0) := by
      cases hs : stepSpec key p with
      | skip => simp [applySpec]
      | err e => simp [applySpec]
      | tally j b =>
        have hj : j < st.counts.length := by
          rw [hlen]; exact stepSpec_tally_lt hs
        cases b with
        | false => simp [applySpec]
        | true =>
          simp only [applySpec, if_pos]
          rw [getD_set_nat st.counts j _ i hj]
          by_cases hij : i = j
          · subst hij; simp
          · rw [if_neg hij]
            have : (j == i) = false := by
              simp only [beq_eq_false_iff_ne]
              exact fun hh => hij hh.symm
            simp [this]
    rw [hstep]
    omega

/-- The sum of the subject slots after the pure loop equals the base sum plus
the number of correct tallies. -/

theorem foldl_tally_counts_sum (key : List (String × Char))
    (l : List (String × StudentAnswer)) :
    ∀ st : LoopState, st.counts.length = subjects.length →
      (l.foldl (fun s p => applySpec s (stepSpec key p)) st).counts.sum
        = st.counts.sum + l.countP (fun p =>
            match stepSpec key p with
            | StepSpec.tally _ b => b
            | _ => false) := by
  induction l with
  | nil => intro st _; simp
  | cons p t ih =>
    intro st hlen
    rw [List.foldl_cons, List.countP_cons,
      ih _ (by rw [applySpec_counts_length]; exact hlen)]
    have hstep : (applySpec st (stepSpec key p)).counts.sum
        = st.counts.sum + (if (match stepSpec key p with
            | StepSpec.tally _ b => b
            | _ => false) = true then 1 else 0) := by
      cases hs : stepSpec key p with
      | skip => simp [applySpec]
      | err e => simp [applySpec]
      | tally j b =>
        have hj : j < st.counts.length := by
          rw [hlen]; exact stepSpec_tally_lt hs
        cases b with
        | false => simp [applySpec]
        | true =>
          simp only [applySpec, if_pos]
          rw [sum_set_add_one st.counts j hj]
    rw [hstep]
    omega

/-- The fields every successful result of `calculate_subject_scores` carries
by construction. -/

theorem calculate_ok_fields {student : List (String × StudentAnswer)}
    {key : List (String × Char)} {sc : Scores}
    (h : calculate_subject_scores student key = Except.ok sc) :
    sc.subject_scores = sc.breakdown_correct.map finalSubjectScore
      ∧ sc.total_score = sc.subject_scores.sum
      ∧ sc.breakdown_total = List.replicate subjects.length questions_per_subject
      ∧ sc.breakdown_correct.length = subjects.length := by
  unfold calculate_subject_scores at h
  cases hf : student.foldlM (scoreStep key)
      { counts := List.replicate subjects.length 0, total_correct := 0,
        total_questions := 0 } with
  | error e => rw [hf] at h; exact absurd h (by simp)
  | ok st =>
    rw [hf] at h
    have hst := (Except.ok.injEq _ _).mp h
    subst hst
    refine ⟨rfl, rfl, rfl, ?_⟩
    have := foldlM_scoreStep_length key student _ _ hf
    simpa using this

/-- C1: in `OMRProcessor.calculate_subject_scores` a question counts correct
exactly when the mapped answer is a single detected letter equal to the key's
letter under case-insensitive comparison; an answer of `None` or a list of
letters (multiple marks) is never counted correct — there is no partial
credit. -/

theorem C1_correct_iff_single_letter_match :
    ∀ (sa : StudentAnswer) (key_letter : Char),
      (isCorrect sa key_letter = true ↔
        ∃ c : Char, sa = StudentAnswer.ans c ∧ c.toUpper = key_letter.toUpper) := by
  intro sa k
  cases sa with
  | null => simp [isCorrect]
  | ans c => simp [isCorrect]
  | multi l => simp [isCorrect]

/-- C2: for every successful scoring result, subject `i`'s score equals
(correct answers in the subject) / (the subject's breakdown question total,
which is the fixed `questions_per_subject = 20`) scaled by the fixed 20-point
maximum, and the total score is the sum of the per-subject scores; the
all-correct sheet under the default 5 × 20 configuration totals 100. -/

theorem C2_subject_scaling_and_total_sum :
    (∀ (student : List (String × StudentAnswer)) (key : List (String × Char))
        (sc : Scores), calculate_subject_scores student key = Except.ok sc →
      (∀ i, i < subjects.length →
        sc.subject_scores.getD i 0
          = (sc.breakdown_correct.getD i 0 : ℚ) / (sc.breakdown_total.getD i 0 : ℚ) * 20)
      ∧ sc.total_score = sc.subject_scores.sum)
    ∧ (∃ sc, calculate_subject_scores all_correct_student sample_answer_key
          = Except.ok sc ∧ sc.total_score = 100) := by
  constructor
  · intro student key sc h
    obtain ⟨hmapf, htotal, hbt, hlen⟩ := calculate_ok_fields h
    refine ⟨?_, htotal⟩
    intro i hi
    have hilen : i < sc.breakdown_correct.length := by rw [hlen]; exact hi
    have hmap : (sc.breakdown_correct.map finalSubjectScore).getD i 0
        = finalSubjectScore (sc.breakdown_correct.getD i 0) := by
      simp [List.getD_eq_getElem?_getD, List.getElem?_map,
        List.getElem?_eq_getElem hilen]
    have htot : (List.replicate subjects.length questions_per_subject).getD i 0
        = questions_per_subject := by
      simp [List.getD_eq_getElem?_getD, List.getElem?_replicate_of_lt hi]
    rw [hmapf, hmap, hbt, htot]
    unfold finalSubjectScore
    rw [if_pos (by decide)]
  · have hbd : (calculate_subject_scores all_correct_student sample_answer_key).map
        Scores.breakdown_correct = Except.ok [20, 20, 20, 20, 20] := by decide
    cases hc : calculate_subject_scores all_correct_student sample_answer_key with
    | error e => rw [hc] at hbd; exact absurd hbd (by simp [Except.map])
    | ok sc =>
      refine ⟨sc, rfl, ?_⟩
      rw [hc] at hbd
      have hbc : sc.breakdown_correct = [20, 20, 20, 20, 20] := by
        simpa [Except.map] using hbd
      obtain ⟨hmapf, htotal, _, _⟩ := calculate_ok_fields hc
      rw [htotal, hmapf, hbc]
      show ([20, 20, 20, 20, 20].map finalSubjectScore).sum = 100
      simp [finalSubjectScore, questions_per_subject]
      norm_num

/-- Concrete instantiation of `C2_subject_scaling_and_total_sum` at a
one-question sheet. -/

theorem C2_subject_scaling_and_total_sum_witness :
    (calculate_subject_scores [("Q1", StudentAnswer.ans 'A')] [("Q1", 'A')]).map
        Scores.total_score
      = (calculate_subject_scores [("Q1", StudentAnswer.ans 'A')] [("Q1", 'A')]).map
        (fun sc => sc.subject_scores.sum) := by
  cases hc : calculate_subject_scores [("Q1", StudentAnswer.ans 'A')] [("Q1", 'A')] with
  | error e => rfl
  | ok sc =>
    have h := (C2_subject_scaling_and_total_sum.1 _ _ sc hc).2
    simp [Except.map, h]

theorem subjects_length : subjects.length = 5 := rfl

theorem subjects_length_int : (subjects.length : Int) = 5 := rfl

/-- The subject-index computation: Python `(question_num - 1) // 20` is floor
division, which for the positive divisor 20 agrees with Euclidean division. -/

theorem fdiv_twenty_eq (a : Int) :
    a.fdiv (questions_per_subject : Int) = a / 20 :=
  Int.fdiv_eq_ediv a (by norm_num [questions_per_subject])

theorem pyIndex?_nonneg {len : Nat} {i : Int} (h0 : 0 ≤ i) (hlt : i < (len : Int)) :
    pyIndex? len i = Option.some i.toNat := by
  simp only [pyIndex?]
  rw [if_neg (by omega : ¬ i < 0), if_neg (by omega)]

theorem pyIndex?_neg_inrange {len : Nat} {i : Int} (h0 : i < 0)
    (h1 : 0 ≤ (len : Int) + i) :
    pyIndex? len i = Option.some ((len : Int) + i).toNat := by
  simp only [pyIndex?]
  rw [if_pos h0, if_neg (by omega)]

theorem pyIndex?_neg_oob {len : Nat} {i : Int} (h0 : i < 0)
    (h1 : (len : Int) + i < 0) :
    pyIndex? len i = Option.none := by
  simp only [pyIndex?]
  rw [if_pos h0, if_pos (Or.inl h1)]

/-- For a shared key parsing to a positive question number `q`, the loop
tallies the item into slot `(q-1)/20` when `q ≤ 100` and skips it when
`100 < q`. -/

theorem stepSpec_pos {key : List (String × Char)} {p : String × StudentAnswer}
    {ka : Char} {q : Int}
    (hl : List.lookup p.1 key = Option.some ka)
    (hp : pyInt? (removeQ p.1) = Option.some q) (hq : 1 ≤ q) :
    stepSpec key p =
      if q ≤ 100 then StepSpec.tally ((q - 1) / 20).toNat (isCorrect p.2 ka)
      else StepSpec.skip := by
  unfold stepSpec
  simp only [hl, hp, fdiv_twenty_eq, subjects_length_int]
  by_cases h100 : q ≤ 100
  · rw [if_neg (by omega : ¬ (5 : Int) ≤ (q - 1) / 20)]
    rw [pyIndex?_nonneg (by omega : (0 : Int) ≤ (q - 1) / 20)
      (by rw [subjects_length_int]; omega)]
    rw [if_pos h100]
  · rw [if_pos (by omega : (5 : Int) ≤ (q - 1) / 20)]
    rw [if_neg h100]

/-- Under the key-format precondition (`q ≥ −99` keeps Python's negative list
indexing inside `subjects`), no iteration raises. -/

theorem stepSpec_ne_err {key : List (String × Char)} {p : String × StudentAnswer}
    (h : (List.lookup p.1 key).isSome = true →
      ∃ q : Int, pyInt? (removeQ p.1) = Option.some q ∧ -99 ≤ q) :
    ∀ e, stepSpec key p ≠ StepSpec.err e := by
  intro e
  unfold stepSpec
  cases hl : List.lookup p.1 key with
  | none => simp
  | some ka =>
    obtain ⟨q, hq, hge⟩ := h (by rw [hl]; rfl)
    simp only [hq, fdiv_twenty_eq, subjects_length_int]
    by_cases h100 : (5 : Int) ≤ (q - 1) / 20
    · simp [h100]
    · rw [if_neg h100]
      by_cases hneg : (q - 1) / 20 < 0
      · rw [show subjects.length = 5 from rfl,
          pyIndex?_neg_inrange hneg (by push_cast; omega)]
        simp
      · rw [show subjects.length = 5 from rfl,
          pyIndex?_nonneg (by omega) (by push_cast; omega)]
        simp

theorem foldl_tally_counts_length (key : List (String × Char))
    (l : List (String × StudentAnswer)) :
    ∀ st : LoopState,
      (l.foldl (fun s p => applySpec s (stepSpec key p)) st).counts.length
        = st.counts.length := by
  induction l with
  | nil => intro st; rfl
  | cons p t ih => intro st; rw [List.foldl_cons, ih, applySpec_counts_length]

theorem calculate_of_foldl_ok {student : List (String × StudentAnswer)}
    {key : List (String × Char)}
    (hne : ∀ p ∈ student, ∀ e, stepSpec key p ≠ StepSpec.err e) :
    calculate_subject_scores student key = Except.ok
      { subject_scores := (loopFold key student).counts.map finalSubjectScore
        total_score := ((loopFold key student).counts.map finalSubjectScore).sum
        correct_answers := (loopFold key student).total_correct
        total_questions := (loopFold key student).total_questions
        breakdown_correct := (loopFold key student).counts
        breakdown_total := List.replicate subjects.length questions_per_subject
        breakdown_percentage := (loopFold key student).counts.map finalPercentage } := by
  unfold calculate_subject_scores loopFold
  rw [foldlM_scoreStep_ok key student hne]

/-- Under the positive-question-number precondition, the slot-`i` tally
predicate of the loop coincides with `ownedCorrect`. -/

theorem slotPred_eq_owned {key : List (String × Char)} (i : Nat)
    (hi : i < subjects.length) {p : String × StudentAnswer}
    (hq : (List.lookup p.1 key).isSome = true →
      ∃ q : Int, pyInt? (removeQ p.1) = Option.some q ∧ 1 ≤ q) :
    (match stepSpec key p with
      | StepSpec.tally j b => b && (j == i)
      | _ => false) = ownedCorrect key i p := by
  cases hl : List.lookup p.1 key with
  | none =>
    have hskip : stepSpec key p = StepSpec.skip := by
      unfold stepSpec; simp [hl]
    rw [hskip]
    simp [ownedCorrect, hl]
  | some ka =>
    obtain ⟨q, hp, hq1⟩ := hq (by rw [hl]; rfl)
    rw [stepSpec_pos hl hp hq1]
    unfold ownedCorrect
    simp only [hl, hp]
    by_cases h100 : q ≤ 100
    · rw [if_pos h100]
      by_cases hb : isCorrect p.2 ka
      · simp only [hb, Bool.true_and, Bool.and_true]
        rw [Bool.eq_iff_iff]
        simp only [beq_iff_eq, Bool.and_eq_true, decide_eq_true_eq]
        have hi5 : i < 5 := by rw [subjects_length] at hi; exact hi
        omega
      · simp only [Bool.not_eq_true] at hb
        simp [hb]
    · rw [if_neg h100]
      have hr : decide (q ≤ (i : Int) * 20 + 20) = false := by
        have hi5 : i < 5 := by rw [subjects_length] at hi; exact hi
        simp only [decide_eq_false_iff_not]
        omega
      simp [hr]

/-- C6 (amended): provided every question key shared with the answer key
parses to a positive question number, subject `i` (0-indexed) tallies exactly
the questions numbered `i*20+1 … i*20+20`, and a question number beyond the
configured subject count is ignored: it contributes to no subject's tally and
the scorer returns normally.  (The amendment restricts the claim to positive
question numbers: a key parsing to `0` or a negative number is misattributed
through Python negative indexing or raises `IndexError`, see
`C6_counterexample_negative_indexing`.) -/

theorem C6_subject_question_ranges :
    ∀ (student : List (String × StudentAnswer)) (key : List (String × Char)),
      (∀ p ∈ student, (List.lookup p.1 key).isSome = true →
        ∃ q : Int, pyInt? (removeQ p.1) = Option.some q ∧ 1 ≤ q) →
      (calculate_subject_scores student key).map Scores.breakdown_correct
        = Except.ok ((List.range subjects.length).map
            (fun i => student.countP (ownedCorrect key i))) := by
  intro student key hpos
  have hne : ∀ p ∈ student, ∀ e, stepSpec key p ≠ StepSpec.err e := by
    intro p hp e
    apply stepSpec_ne_err
    intro hsome
    obtain ⟨q, hq, h1⟩ := hpos p hp hsome
    exact ⟨q, hq, by omega⟩
  rw [calculate_of_foldl_ok hne]
  simp only [Except.map]
  refine congrArg Except.ok ?_
  have hlen : (loopFold key student).counts.length = subjects.length := by
    unfold loopFold
    rw [foldl_tally_counts_length]
    simp
  apply List.ext_getElem
  · rw [hlen]; simp
  · intro i hi1 hi2
    have hi : i < subjects.length := by rw [← hlen]; exact hi1
    have hgetd : (loopFold key student).counts.getD i 0
        = (loopFold key student).counts[i] := by
      rw [List.getD_eq_getElem?_getD, List.getElem?_eq_getElem hi1]
      rfl
    rw [← hgetd]
    unfold loopFold
    rw [foldl_tally_counts_getD key student i _ (by simp)]
    have hinit : (List.replicate subjects.length (0 : Nat)).getD i 0 = 0 := by
      rw [List.getD_eq_getElem?_getD, List.getElem?_replicate_of_lt hi]
      rfl
    rw [hinit]
    have hcong : student.countP (fun p =>
        match stepSpec key p with
        | StepSpec.tally j b => b && (j == i)
        | _ => false) = student.countP (ownedCorrect key i) := by
      apply List.countP_congr
      intro p hp
      rw [slotPred_eq_owned i hi (hpos p hp)]
    rw [hcong]
    simp [List.getElem_map, List.getElem_range]

/-- C6 fails as literally stated: the key `"Q0"` parses to question number 0,
Python floor division gives subject index −1, and Python's negative list
indexing attributes the question to the last subject (English, slot 4),
although 0 lies in no subject's owned range `[i*20+1, (i+1)*20]`. -/

theorem C6_counterexample_negative_indexing :
    (calculate_subject_scores [("Q0", StudentAnswer.ans 'A')] [("Q0", 'A')]).map
        Scores.breakdown_correct
      = Except.ok [0, 0, 0, 0, 1] := by decide

/-- Concrete instantiation of `C6_subject_question_ranges`. -/

theorem C6_subject_question_ranges_witness :
    (calculate_subject_scores [("Q1", StudentAnswer.ans 'A')] [("Q1", 'B')]).map
        Scores.breakdown_correct
      = Except.ok ((List.range subjects.length).map
          (fun i => [("Q1", StudentAnswer.ans 'A')].countP
            (ownedCorrect [("Q1", 'B')] i))) := by
  apply C6_subject_question_ranges
  intro p hp _
  simp only [List.mem_singleton] at hp
  subst hp
  exact ⟨1, by decide, by decide⟩

/-- C9 (amended): the scorer is total under the key-format precondition that
every shared key, after deleting the `'Q'` characters, parses as a decimal
integer that is at least −99 (so Python's negative list indexing stays inside
the 5-subject list); a shared key that does not parse — `"q1"` here, since
`replace('Q', '')` is case-sensitive — raises an uncaught `ValueError`.
(The amendment adds the `≥ −99` bound: a parsing key such as `"Q-100"`
nevertheless raises `IndexError`, see `C9_counterexample_indexerror`.) -/

theorem C9_parse_precondition_totality :
    (∀ (student : List (String × StudentAnswer)) (key : List (String × Char)),
      (∀ p ∈ student, (List.lookup p.1 key).isSome = true →
        ∃ q : Int, pyInt? (removeQ p.1) = Option.some q ∧ -99 ≤ q) →
      (calculate_subject_scores student key).isOk = true)
    ∧ calculate_subject_scores [("q1", StudentAnswer.ans 'A')] [("q1", 'A')]
        = Except.error PyErr.valueError := by
  constructor
  · intro student key h
    have hne : ∀ p ∈ student, ∀ e, stepSpec key p ≠ StepSpec.err e :=
      fun p hp => stepSpec_ne_err (h p hp)
    rw [calculate_of_foldl_ok hne]
    rfl
  · decide

/-- C9 fails as literally stated: `"Q-100"` parses as the decimal integer
−100, yet the scorer raises (`IndexError`, not `ValueError`): subject index
`(−100 − 1) // 20 = −6` is out of range even for Python's negative
indexing. -/

theorem C9_counterexample_indexerror :
    (pyInt? (removeQ "Q-100")).isSome = true
      ∧ calculate_subject_scores [("Q-100", StudentAnswer.ans 'A')]
          [("Q-100", 'A')] = Except.error PyErr.indexError := by decide

/-- Concrete instantiation of `C9_parse_precondition_totality`. -/

theorem C9_parse_precondition_totality_witness :
    (calculate_subject_scores [("Q7", StudentAnswer.ans 'B')] [("Q7", 'B')]).isOk
      = true := by
  apply C9_parse_precondition_totality.1
  intro p hp _
  simp only [List.mem_singleton] at hp
  subst hp
  exact ⟨7, by decide, by decide⟩

end OMR

namespace Utils

theorem flaggedRaw_parse {student_answers : List (String × String)}
    {confidence_scores : List (String × ℚ)} {t : ℚ}
    (hconf : ∀ p ∈ confidence_scores, (pyInt? p.1).isSome = true) :
    ∀ q ∈ flaggedRaw student_answers confidence_scores t,
      (pyInt? q).isSome = true := by
  intro q hq
  rcases List.mem_append.mp hq with hl | hr
  · obtain ⟨p, hp, rfl⟩ := List.mem_map.mp hl
    exact hconf p (List.mem_of_mem_filter hp)
  · have hmem := (List.mem_filter.mp hr).1
    obtain ⟨n, _, rfl⟩ := List.mem_map.mp hmem
    rw [pyInt_repr]
    rfl

theorem identify_eq_ok {student_answers : List (String × String)}
    {confidence_scores : List (String × ℚ)} {t : ℚ}
    (hconf : ∀ p ∈ confidence_scores, (pyInt? p.1).isSome = true) :
    identify_flagged_questions student_answers confidence_scores t
      = Except.ok ((flaggedRaw student_answers confidence_scores t).dedup.mergeSort
          (fun a b => decide ((pyInt? a).getD 0 ≤ (pyInt? b).getD 0))) := by
  unfold identify_flagged_questions flaggedRaw
  rw [if_pos]
  rw [List.all_eq_true]
  intro q hq
  exact flaggedRaw_parse hconf q (List.mem_dedup.mp hq)

theorem flaggedRaw_subset {student_answers : List (String × String)}
    {confidence_scores : List (String × ℚ)} {t1 t2 : ℚ} (h : t1 ≤ t2) :
    ∀ q ∈ flaggedRaw student_answers confidence_scores t1,
      q ∈ flaggedRaw student_answers confidence_scores t2 := by
  intro q hq
  unfold flaggedRaw at hq ⊢
  rcases List.mem_append.mp hq with hl | hr
  · refine List.mem_append.mpr (Or.inl ?_)
    obtain ⟨p, hp, rfl⟩ := List.mem_map.mp hl
    refine List.mem_map.mpr ⟨p, ?_, rfl⟩
    obtain ⟨hmem, hlt⟩ := List.mem_filter.mp hp
    refine List.mem_filter.mpr ⟨hmem, ?_⟩
    simp only [decide_eq_true_eq] at hlt ⊢
    exact lt_of_lt_of_le hlt h
  · exact List.mem_append.mpr (Or.inr hr)

/-- C7: with the question keys of the confidence map well-formed (parseable,
as produced by the pipeline), raising the confidence threshold never
decreases the number of flagged questions: the set of below-threshold
questions only grows, and the blank-question flags are threshold-
independent. -/

theorem C7_threshold_monotone :
    ∀ (student_answers : List (String × String))
      (confidence_scores : List (String × ℚ)) (t1 t2 : ℚ),
      t1 ≤ t2 →
      (∀ p ∈ confidence_scores, (pyInt? p.1).isSome = true) →
      ∃ l1 l2,
        identify_flagged_questions student_answers confidence_scores t1
            = Except.ok l1
        ∧ identify_flagged_questions student_answers confidence_scores t2
            = Except.ok l2
        ∧ l1.length ≤ l2.length := by
  intro sa conf t1 t2 h12 hconf
  refine ⟨_, _, identify_eq_ok hconf, identify_eq_ok hconf, ?_⟩
  rw [List.length_mergeSort, List.length_mergeSort]
  have hc1 := (List.card_toFinset (flaggedRaw sa conf t1)).symm
  have hc2 := (List.card_toFinset (flaggedRaw sa conf t2)).symm
  rw [hc1, hc2]
  apply Finset.card_le_card
  intro x hx
  rw [List.mem_toFinset] at hx ⊢
  exact flaggedRaw_subset h12 x hx

/-- Concrete instantiation of `C7_threshold_monotone`. -/

theorem C7_threshold_monotone_witness :
    ∃ l1 l2,
      identify_flagged_questions [] [("1", (1 : ℚ) / 2)] 0 = Except.ok l1
      ∧ identify_flagged_questions [] [("1", (1 : ℚ) / 2)] 1 = Except.ok l2
      ∧ l1.length ≤ l2.length := by
  apply C7_threshold_monotone [] [("1", (1 : ℚ) / 2)] 0 1 (by norm_num)
  intro p hp
  simp only [List.mem_singleton] at hp
  subst hp
  decide

/-- The injective decimal naming of the expected question ids. -/

theorem expected_nodup (n : Nat) :
    ((List.range n).map (fun i => Nat.repr (i + 1))).Nodup := by
  apply List.Nodup.map
  · intro a b hab
    have := natRepr_inj hab
    omega
  · exact List.nodup_range n

/-- `List.contains` through lawful `BEq`. -/

theorem contains_iff_mem {l : List String} {a : String} :
    l.contains a = true ↔ a ∈ l := by
  simp [List.contains]

/-- `valid` unfolded into its three error sources. -/

theorem validate_valid_iff_parts (answer_key : List (String × Char))
    (total_questions : Nat) :
    (validate_answer_key answer_key total_questions).valid = true ↔
      (answer_key.length = total_questions
        ∧ (∀ p ∈ answer_key,
            (∃ q : Int, pyInt? p.1 = Option.some q ∧ 1 ≤ q ∧ q ≤ (total_questions : Int))
            ∧ p.2 ∈ valid_answers)
        ∧ ∀ s ∈ (List.range total_questions).map (fun i => Nat.repr (i + 1)),
            s ∈ answer_key.map Prod.fst) := by
  simp only [validate_answer_key]
  rw [List.isEmpty_iff, List.append_eq_nil, List.append_eq_nil]
  constructor
  · rintro ⟨⟨hcount, hentry⟩, hmissing⟩
    refine ⟨?_, ?_, ?_⟩
    · by_cases h : answer_key.length = total_questions
      · exact h
      · rw [if_pos h] at hcount
        exact absurd hcount (by simp)
    · intro p hp
      have hfp := List.flatMap_eq_nil_iff.mp hentry p hp
      rw [List.append_eq_nil] at hfp
      obtain ⟨h1, h2⟩ := hfp
      constructor
      · cases hq : pyInt? p.1 with
        | none => simp only [hq] at h1; exact absurd h1 (by simp)
        | some q =>
          simp only [hq] at h1
          refine ⟨q, rfl, ?_⟩
          by_cases hr : q < 1 ∨ (total_questions : Int) < q
          · rw [if_pos hr] at h1; exact absurd h1 (by simp)
          · omega
      · by_cases hv : p.2 ∈ valid_answers
        · exact hv
        · rw [if_neg hv] at h2; exact absurd h2 (by simp)
    · intro s hs
      by_cases hm : (((List.range total_questions).map (fun i => Nat.repr (i + 1))).filter
          (fun q => ¬ (answer_key.map Prod.fst).contains q)).isEmpty
      · rw [List.isEmpty_iff, List.filter_eq_nil_iff] at hm
        have hsm := hm s hs
        simp only [decide_not, Bool.not_eq_true', Bool.not_eq_false,
          decide_eq_true_eq] at hsm
        exact contains_iff_mem.mp hsm
      · rw [if_neg hm] at hmissing
        exact absurd hmissing (by simp)
  · rintro ⟨hlen, hentries, hcover⟩
    refine ⟨⟨?_, ?_⟩, ?_⟩
    · rw [if_neg (fun hne => hne hlen)]
    · rw [List.flatMap_eq_nil_iff]
      intro p hp
      obtain ⟨⟨q, hq, hq1, hq2⟩, hv⟩ := hentries p hp
      rw [List.append_eq_nil]
      constructor
      · simp only [hq]
        rw [if_neg (by omega)]
      · rw [if_pos hv]
    · rw [if_pos]
      rw [List.isEmpty_iff, List.filter_eq_nil_iff]
      intro s hs
      simp only [decide_not, Bool.not_eq_true', Bool.not_eq_false,
        decide_eq_true_eq]
      exact contains_iff_mem.mpr (hcover s hs)

/-- C8: `validate_answer_key` reports `valid` exactly when the key set is
exactly the strings `"1"`..`"N"` and every value is one of the uppercase
letters A, B, C, D.  Distribution skew feeds only the `warnings` list, which
`valid` (defined as `errors == []`) never consults. -/

theorem C8_validate_answer_key_iff :
    ∀ (answer_key : List (String × Char)) (total_questions : Nat),
      (answer_key.map Prod.fst).Nodup →
      ((validate_answer_key answer_key total_questions).valid = true ↔
        ((answer_key.map Prod.fst).toFinset
            = ((List.range total_questions).map (fun i => Nat.repr (i + 1))).toFinset
          ∧ ∀ p ∈ answer_key, p.2 ∈ valid_answers)) := by
  intro key N hnd
  rw [validate_valid_iff_parts]
  constructor
  · rintro ⟨hlen, hentry, hcover⟩
    refine ⟨?_, fun p hp => (hentry p hp).2⟩
    have hsub : ((List.range N).map (fun i => Nat.repr (i + 1))).toFinset
        ⊆ (key.map Prod.fst).toFinset := by
      intro x hx
      rw [List.mem_toFinset] at hx ⊢
      exact hcover x hx
    have hck : (key.map Prod.fst).toFinset.card = N := by
      rw [List.card_toFinset, List.dedup_eq_self.mpr hnd, List.length_map, hlen]
    have hce : ((List.range N).map (fun i => Nat.repr (i + 1))).toFinset.card = N := by
      rw [List.card_toFinset, List.dedup_eq_self.mpr (expected_nodup N),
        List.length_map, List.length_range]
    exact (Finset.eq_of_subset_of_card_le hsub (by simp [hck, hce])).symm
  · rintro ⟨hset, hvals⟩
    have hck : key.length = N := by
      have h1 : (key.map Prod.fst).toFinset.card = key.length := by
        rw [List.card_toFinset, List.dedup_eq_self.mpr hnd, List.length_map]
      have h2 : ((List.range N).map (fun i => Nat.repr (i + 1))).toFinset.card = N := by
        rw [List.card_toFinset, List.dedup_eq_self.mpr (expected_nodup N),
          List.length_map, List.length_range]
      rw [← h1, hset, h2]
    refine ⟨hck, ?_, ?_⟩
    · intro p hp
      refine ⟨?_, hvals p hp⟩
      have hmem : p.1 ∈ (List.range N).map (fun i => Nat.repr (i + 1)) := by
        rw [← List.mem_toFinset, ← hset, List.mem_toFinset]
        exact List.mem_map.mpr ⟨p, hp, rfl⟩
      obtain ⟨i, hi, hrep⟩ := List.mem_map.mp hmem
      rw [List.mem_range] at hi
      refine ⟨((i + 1 : Nat) : Int), ?_, by omega, by omega⟩
      rw [← hrep]
      exact pyInt_repr (i + 1)
    · intro s hs
      rw [← List.mem_toFinset, ← hset, List.mem_toFinset] at hs
      exact hs

/-- Concrete instantiation of `C8_validate_answer_key_iff` at a two-question
key. -/

theorem C8_validate_answer_key_iff_witness :
    (validate_answer_key [("1", 'A'), ("2", 'B')] 2).valid = true := by
  rw [C8_validate_answer_key_iff [("1", 'A'), ("2", 'B')] 2 (by decide)]
  exact ⟨by decide, by decide⟩

end Utils

/-- A basic-latin uppercase letter is a fixed point of `Char.toUpper`
(utils-side exact comparison and OMR-side case-insensitive comparison then
agree). -/

theorem toUpper_eq_self_of_isUpper {c : Char} (h : c.isUpper = true) :
    c.toUpper = c := by
  simp only [Char.isUpper, Bool.and_eq_true, decide_eq_true_eq] at h
  obtain ⟨hA, hZ⟩ := h
  have hZn : c.val.toNat ≤ 90 := by
    rw [UInt32.le_def, BitVec.le_def] at hZ
    exact hZ
  unfold Char.toUpper
  rw [if_neg]
  intro hcond
  obtain ⟨h97, _⟩ := hcond
  unfold Char.toNat at h97
  omega

/-- A successful association-list lookup names an entry of the list. -/

theorem lookup_some_mem {β : Type} {l : List (String × β)} {k : String} {v : β}
    (h : List.lookup k l = Option.some v) : (k, v) ∈ l := by
  induction l with
  | nil => simp at h
  | cons p t ih =>
    rcases p with ⟨k0, v0⟩
    rw [List.lookup_cons] at h
    by_cases he : (k == k0) = true
    · simp only [he] at h
      have hv := (Option.some.injEq _ _).mp h
      have hk : k = k0 := eq_of_beq he
      rw [hk, ← hv]
      exact List.mem_cons_self _ _
    · simp only [Bool.not_eq_true] at he
      simp only [he] at h
      exact List.mem_cons_of_mem _ (ih h)

/-- Counting matching items of a `Nodup`-keyed association list equals
counting its keys with their looked-up values. -/

theorem countP_items_eq_keys {β : Type} (P : String → β → Bool) :
    ∀ (l : List (String × β)), (l.map Prod.fst).Nodup →
      l.countP (fun p => P p.1 p.2)
        = (l.map Prod.fst).countP (fun k =>
            match List.lookup k l with
            | Option.some v => P k v
            | Option.none => false) := by
  intro l
  induction l with
  | nil => intro _; rfl
  | cons p t ih =>
    intro hnd
    rcases p with ⟨k0, v0⟩
    rw [List.map_cons] at hnd
    have hnotin : k0 ∉ t.map Prod.fst := (List.nodup_cons.mp hnd).1
    have hndt := (List.nodup_cons.mp hnd).2
    rw [List.map_cons, List.countP_cons, List.countP_cons, ih hndt]
    have hhead : List.lookup k0 ((k0, v0) :: t) = Option.some v0 := by
      rw [List.lookup_cons]
      simp
    have hcong : (t.map Prod.fst).countP (fun k =>
          match List.lookup k t with
          | Option.some v => P k v
          | Option.none => false)
        = (t.map Prod.fst).countP (fun k =>
          match List.lookup k ((k0, v0) :: t) with
          | Option.some v => P k v
          | Option.none => false) := by
      apply List.countP_congr
      intro k hk
      have hne : k0 ≠ k := fun he => hnotin (he ▸ hk)
      have hf : (k == k0) = false := beq_false_of_ne (fun he => hne he.symm)
      rw [List.lookup_cons]
      simp only [hf]
    rw [hcong, hhead]

namespace Utils

theorem tally_foldl_fst (sa ca : List (String × Char)) :
    ∀ (l : List Nat) (acc : Nat × Nat),
      (l.foldl (fun acc q_num =>
        match List.lookup (Nat.repr q_num) sa, List.lookup (Nat.repr q_num) ca with
        | Option.some s, Option.some c =>
          ((if s == c then acc.1 + 1 else acc.1), acc.2 + 1)
        | _, _ => acc) acc).1
      = acc.1 + l.countP (bothCorrect sa ca) := by
  intro l
  induction l with
  | nil => intro acc; simp
  | cons q t ih =>
    intro acc
    rw [List.foldl_cons, ih, List.countP_cons]
    have hstep : (match List.lookup (Nat.repr q) sa, List.lookup (Nat.repr q) ca with
        | Option.some s, Option.some c =>
          ((if s == c then acc.1 + 1 else acc.1), acc.2 + 1)
        | _, _ => acc).1 = acc.1 + (if bothCorrect sa ca q = true then 1 else 0) := by
      unfold bothCorrect
      cases List.lookup (Nat.repr q) sa with
      | none => simp
      | some s =>
        cases List.lookup (Nat.repr q) ca with
        | none => simp
        | some c => by_cases h : (s == c) = true <;> simp [h]
    rw [hstep]
    omega

theorem subjectTally_fst (sa ca : List (String × Char)) (start_q k : Nat) :
    (subjectTally sa ca start_q k).1
      = ((List.range k).map (fun j => start_q + j)).countP (bothCorrect sa ca) := by
  unfold subjectTally
  rw [tally_foldl_fst]
  simp

/-- The utils total score counts exactly the questions `1`..`100` present in
both dicts and answered correctly. -/

theorem utils_total_eq_countP (sa ca : List (String × Char)) :
    (calculate_subject_scores sa ca).total_score
      = ((List.range 100).map (fun n => n + 1)).countP (bothCorrect sa ca) := by
  simp only [calculate_subject_scores]
  have henum : default_subjects.enum = [(0, "Mathematics"), (1, "Physics"),
      (2, "Chemistry"), (3, "Biology"), (4, "English")] := rfl
  rw [henum]
  simp only [List.map_cons, List.map_nil, List.sum_cons, List.sum_nil]
  simp only [show (0 : Nat) * 20 + 1 = 1 from rfl, show (1 : Nat) * 20 + 1 = 21 from rfl,
    show (2 : Nat) * 20 + 1 = 41 from rfl, show (3 : Nat) * 20 + 1 = 61 from rfl,
    show (4 : Nat) * 20 + 1 = 81 from rfl, Nat.add_zero]
  rw [subjectTally_fst sa ca 1 20, subjectTally_fst sa ca 21 20,
    subjectTally_fst sa ca 41 20, subjectTally_fst sa ca 61 20,
    subjectTally_fst sa ca 81 20]
  have hsplit : (List.range 100).map (fun n => n + 1)
      = ((List.range 20).map (fun j => 1 + j)) ++ ((List.range 20).map (fun j => 21 + j))
        ++ ((List.range 20).map (fun j => 41 + j))
        ++ ((List.range 20).map (fun j => 61 + j))
        ++ ((List.range 20).map (fun j => 81 + j)) := by decide
  rw [hsplit, List.countP_append, List.countP_append, List.countP_append,
    List.countP_append]
  omega

end Utils

namespace OMR

theorem loopFold_total_correct (key : List (String × Char))
    (student : List (String × StudentAnswer)) :
    (loopFold key student).total_correct = student.countP (fun p =>
      match stepSpec key p with
      | StepSpec.tally _ b => b
      | _ => false) := by
  unfold loopFold
  rw [foldl_tally_total_correct]
  simp

theorem loopFold_counts_sum (key : List (String × Char))
    (student : List (String × StudentAnswer)) :
    (loopFold key student).counts.sum = (loopFold key student).total_correct := by
  unfold loopFold
  rw [foldl_tally_counts_sum _ _ _ (by simp), foldl_tally_total_correct]
  simp

/-- Scaling each correct count by `20/20` leaves the sum unchanged: the sum
of the subject scores is the total correct count, cast to ℚ. -/

theorem map_finalSubjectScore_sum (l : List Nat) :
    (l.map finalSubjectScore).sum = (l.sum : ℚ) := by
  induction l with
  | nil => simp
  | cons a t ih =>
    simp only [List.map_cons, List.sum_cons, ih]
    unfold finalSubjectScore
    rw [if_pos (by decide)]
    have h20 : (a : ℚ) / (questions_per_subject : ℚ) * 20 = (a : ℚ) := by
      norm_num [questions_per_subject]
    rw [h20]
    push_cast
    ring

end OMR

/-- C10: on maps whose keys are exactly the bare numeric strings `"1"`..
`"100"` and whose values are single uppercase letters, the two scoring
implementations agree on the total score: the OMR scorer's ℚ total equals
the utils scorer's integer total. -/

theorem C10_scorers_agree_on_total :
    ∀ (student correct : List (String × Char)),
      List.Perm (student.map Prod.fst) expected100 →
      List.Perm (correct.map Prod.fst) expected100 →
      (∀ p ∈ student, p.2.isUpper = true) →
      (∀ p ∈ correct, p.2.isUpper = true) →
      ∃ sc, OMR.calculate_subject_scores
          (student.map (fun p => (p.1, StudentAnswer.ans p.2))) correct
          = Except.ok sc
        ∧ sc.total_score
            = ((Utils.calculate_subject_scores student correct).total_score : ℚ) := by
  intro student correct hps hpc hus huc
  have hkeys' : (student.map (fun p => (p.1, StudentAnswer.ans p.2))).map Prod.fst
      = student.map Prod.fst := by
    rw [List.map_map]
    rfl
  have hkparse : ∀ k ∈ student.map Prod.fst,
      ∃ n : Nat, n < 100 ∧ k = Nat.repr (n + 1) := by
    intro k hk
    have hmem : k ∈ expected100 := (hps.mem_iff).mp hk
    obtain ⟨n, hn, hrep⟩ := List.mem_map.mp hmem
    exact ⟨n, List.mem_range.mp hn, hrep.symm⟩
  have hne : ∀ p ∈ student.map (fun p => (p.1, StudentAnswer.ans p.2)),
      ∀ e, OMR.stepSpec correct p ≠ OMR.StepSpec.err e := by
    intro p hp
    apply OMR.stepSpec_ne_err
    intro _
    have hk : p.1 ∈ student.map Prod.fst := by
      rw [← hkeys']
      exact List.mem_map.mpr ⟨p, hp, rfl⟩
    obtain ⟨n, hn, hrep⟩ := hkparse p.1 hk
    refine ⟨((n + 1 : Nat) : Int), ?_, by omega⟩
    rw [hrep, removeQ_repr, pyInt_repr]
  refine ⟨_, OMR.calculate_of_foldl_ok hne, ?_⟩
  show ((OMR.loopFold correct
      (student.map (fun p => (p.1, StudentAnswer.ans p.2)))).counts.map
        OMR.finalSubjectScore).sum = _
  rw [OMR.map_finalSubjectScore_sum, OMR.loopFold_counts_sum,
    OMR.loopFold_total_correct, Utils.utils_total_eq_countP]
  congr 1
  have h1 : (student.map (fun p => (p.1, StudentAnswer.ans p.2))).countP (fun p =>
        match OMR.stepSpec correct p with
        | OMR.StepSpec.tally _ b => b
        | _ => false)
      = (student.map (fun p => (p.1, StudentAnswer.ans p.2))).countP (fun p =>
        match List.lookup p.1 correct with
        | Option.some w => OMR.isCorrect p.2 w
        | Option.none => false) := by
    apply List.countP_congr
    intro p hp
    have hk : p.1 ∈ student.map Prod.fst := by
      rw [← hkeys']
      exact List.mem_map.mpr ⟨p, hp, rfl⟩
    obtain ⟨n, hn, hrep⟩ := hkparse p.1 hk
    cases hl : List.lookup p.1 correct with
    | none =>
      have hskip : OMR.stepSpec correct p = OMR.StepSpec.skip := by
        unfold OMR.stepSpec
        simp [hl]
      simp [hskip, hl]
    | some w =>
      have hparse2 : pyInt? (removeQ p.1) = Option.some ((n + 1 : Nat) : Int) := by
        rw [hrep, removeQ_repr, pyInt_repr]
      rw [OMR.stepSpec_pos hl hparse2 (by omega),
        if_pos (by omega : ((n + 1 : Nat) : Int) ≤ 100)]
  rw [h1, List.countP_map]
  have h2 : student.countP ((fun p =>
        match List.lookup p.1 correct with
        | Option.some w => OMR.isCorrect p.2 w
        | Option.none => false) ∘ (fun p => (p.1, StudentAnswer.ans p.2)))
      = student.countP (fun p =>
        match List.lookup p.1 correct with
        | Option.some w => p.2 == w
        | Option.none => false) := by
    apply List.countP_congr
    intro p hp
    simp only [Function.comp]
    cases hl : List.lookup p.1 correct with
    | none => simp
    | some w =>
      have hw : w.isUpper = true := by
        have hmem := lookup_some_mem hl
        exact huc (p.1, w) hmem
      have hv : p.2.isUpper = true := hus p hp
      have hic : OMR.isCorrect (StudentAnswer.ans p.2) w = (p.2 == w) := by
        show (p.2.toUpper == w.toUpper) = (p.2 == w)
        rw [toUpper_eq_self_of_isUpper hv, toUpper_eq_self_of_isUpper hw]
      simp [hic]
  rw [h2]
  have hnd : (student.map Prod.fst).Nodup :=
    (hps.nodup_iff).mpr (Utils.expected_nodup 100)
  rw [countP_items_eq_keys (fun k v =>
      match List.lookup k correct with
      | Option.some w => v == w
      | Option.none => false) student hnd]
  rw [List.Perm.countP_eq _ hps]
  show expected100.countP _ = _
  unfold expected100
  rw [List.countP_map, List.countP_map]
  apply List.countP_congr
  intro n hn
  simp only [Function.comp]
  unfold Utils.bothCorrect
  cases hl1 : List.lookup (Nat.repr (n + 1)) student with
  | none => simp
  | some v =>
    cases hl2 : List.lookup (Nat.repr (n + 1)) correct with
    | none => simp
    | some w => simp

/-- Concrete instantiation of `C10_scorers_agree_on_total` at the canonical
all-A key. -/

theorem C10_scorers_agree_on_total_witness :
    ∃ sc, OMR.calculate_subject_scores
        (((List.range 100).map (fun n => (Nat.repr (n + 1), 'A'))).map
          (fun p => (p.1, StudentAnswer.ans p.2)))
        ((List.range 100).map (fun n => (Nat.repr (n + 1), 'A')))
        = Except.ok sc
      ∧ sc.total_score
          = ((Utils.calculate_subject_scores
              ((List.range 100).map (fun n => (Nat.repr (n + 1), 'A')))
              ((List.range 100).map (fun n => (Nat.repr (n + 1), 'A')))).total_score
            : ℚ) := by
  apply C10_scorers_agree_on_total
  · rw [show ((List.range 100).map (fun n => (Nat.repr (n + 1), 'A'))).map Prod.fst
        = expected100 from by rw [List.map_map]; rfl]
  · rw [show ((List.range 100).map (fun n => (Nat.repr (n + 1), 'A'))).map Prod.fst
        = expected100 from by rw [List.map_map]; rfl]
  · intro p hp
    obtain ⟨n, _, hrep⟩ := List.mem_map.mp hp
    rw [← hrep]
    rfl
  · intro p hp
    obtain ⟨n, _, hrep⟩ := List.mem_map.mp hp
    rw [← hrep]
    rfl

/-- Running any command list with a failing cv2 oracle leaves the base image
unchanged (the first failing call is caught before any mutation). -/

theorem runDraw_fail (e : String) (img : Image) (cmds : List DrawCmd) :
    runDraw (fun _ _ => Except.error e) img cmds = img := by
  cases cmds with
  | nil => rfl
  | cons c cs => rfl

/-- C5 (amended): the audit renderer never raises — even when every cv2
drawing call fails the exception is contained and an image is returned — and
on a missing grid or a grid with no rows it returns the unannotated base
overlay: the original image unchanged when the original is colour, its
grayscale→BGR conversion otherwise.  (The amendment: for a grayscale
original the early return is the 3-channel conversion, not the original
image itself, see `C5_counterexample_grayscale_conversion`.) -/

theorem C5_overlay_total_and_passthrough :
    (∀ (draw : Image → DrawCmd → Except String Image) (img : Image)
        (br : BubbleResults) (ans : List (String × StudentAnswer)),
      (br.grid_structure = Option.none
        ∨ ∃ g, br.grid_structure = Option.some g ∧ g.rows = []) →
      create_overlay_image draw img br ans = baseOverlay img)
    ∧ (∀ (e : String) (img : Image) (br : BubbleResults)
        (ans : List (String × StudentAnswer)),
      create_overlay_image (fun _ _ => Except.error e) img br ans = baseOverlay img)
    ∧ ∀ px, baseOverlay (Image.color px) = Image.color px := by
  refine ⟨?_, ?_, fun px => rfl⟩
  · intro draw img br ans h
    unfold create_overlay_image
    rcases h with h | ⟨g, hg, hrows⟩
    · rw [h]
    · rw [hg]
      simp [hrows]
  · intro e img br ans
    unfold create_overlay_image
    cases hgs : br.grid_structure with
    | none => rfl
    | some g =>
      by_cases hr : g.rows.isEmpty
      · simp [hr]
      · simp [hr, runDraw_fail]

/-- C5 fails as literally stated: with the grid missing, a grayscale original
comes back as its BGR conversion — unannotated, but not the original image
unchanged. -/

theorem C5_counterexample_grayscale_conversion :
    create_overlay_image (fun img _ => Except.ok img) (Image.gray [[5]])
        { bubbles_detected := 0, grid_structure := Option.none,
          classifications := [], confidence_scores := [] } []
      ≠ Image.gray [[5]] := by decide

/-- Concrete instantiation of `C5_overlay_total_and_passthrough`. -/

theorem C5_overlay_total_and_passthrough_witness :
    create_overlay_image (fun img _ => Except.ok img) (Image.color [[(1, 2, 3)]])
        { bubbles_detected := 0, grid_structure := Option.none,
          classifications := [], confidence_scores := [] } []
      = baseOverlay (Image.color [[(1, 2, 3)]]) :=
  C5_overlay_total_and_passthrough.1 _ _ _ _ (Or.inl rfl)

/-- C3: a sheet whose bubble detection reports zero bubbles does not crash
the caller: the `raise ValueError("No bubbles detected in the image")` of
line 251 is caught by the sheet's own `except` branch, producing a result
with `success = False` and the error message set; and batch processing still
returns exactly one result per input path — each entry IS the per-sheet
result, so a failed sheet never aborts the rest. -/

theorem C3_zero_bubbles_nonfatal_batch :
    (∀ (st : Stages) (answer_keys : List (String × List (String × Char)))
        (image_path : String) (sv sid : Option String) (img : Image)
        (info : String) (br : BubbleResults),
      st.preprocess image_path = Except.ok (img, info) →
      st.detect_and_classify img = Except.ok br →
      br.bubbles_detected = 0 →
      (process_omr_sheet st answer_keys image_path sv sid).success = false
        ∧ (process_omr_sheet st answer_keys image_path sv sid).error_message
            = Option.some "Error processing OMR sheet: No bubbles detected in the image")
    ∧ ∀ (st : Stages) (answer_keys : List (String × List (String × Char)))
        (image_paths : List String)
        (sheet_versions student_ids : Option (List String)),
      (batch_process_omr_sheets st answer_keys image_paths sheet_versions
          student_ids).length = image_paths.length
        ∧ ∀ i, i < image_paths.length →
            (batch_process_omr_sheets st answer_keys image_paths sheet_versions
                student_ids)[i]?
              = Option.some (process_omr_sheet st answer_keys
                  (image_paths.getD i "")
                  (pyOptIndex sheet_versions i) (pyOptIndex student_ids i)) := by
  constructor
  · intro st keys path sv sid img info br hpre hdet hbub
    unfold process_omr_sheet
    simp [hpre, hdet, hbub, failWith]
  · intro st keys paths svs sids
    constructor
    · simp [batch_process_omr_sheets]
    · intro i hi
      unfold batch_process_omr_sheets
      rw [List.getElem?_map]
      rw [List.getElem?_enum]
      rw [List.getElem?_eq_getElem (by simpa using hi)]
      have hgd : paths.getD i "" = paths[i] := by
        rw [List.getD_eq_getElem?_getD, List.getElem?_eq_getElem hi]
        rfl
      rw [hgd]
      rfl

/-- Concrete instantiation of `C3_zero_bubbles_nonfatal_batch`. -/

theorem C3_zero_bubbles_nonfatal_batch_witness :
    (process_omr_sheet zeroBubbleStages [] "sheet.jpg" Option.none
        Option.none).success = false
      ∧ (process_omr_sheet zeroBubbleStages [] "sheet.jpg" Option.none
          Option.none).error_message
          = Option.some "Error processing OMR sheet: No bubbles detected in the image" :=
  C3_zero_bubbles_nonfatal_batch.1 zeroBubbleStages [] "sheet.jpg" Option.none
    Option.none (Image.gray [[0]]) "deskewed"
    { bubbles_detected := 0, grid_structure := Option.none,
      classifications := [], confidence_scores := [] } rfl rfl rfl

/-- C4: when the effective (declared or stub-detected) sheet version has no
answer key, the sheet is NOT failed: processing continues to the end with
`success = True`, the scores section is the explicit error payload
`{"error": "No answer key for version ..."}` (line 274), and the mapped
student answers and the detection results stay populated in the same
result. -/

theorem C4_missing_key_explicit_error_payload :
    ∀ (st : Stages) (answer_keys : List (String × List (String × Char)))
      (image_path : String) (sv sid : Option String) (img : Image)
      (info : String) (br : BubbleResults) (am : AnswerMapping) (orig : Image),
      st.preprocess image_path = Except.ok (img, info) →
      st.detect_and_classify img = Except.ok br →
      br.bubbles_detected ≠ 0 →
      st.map_bubbles_to_answers br.grid_structure br.classifications
          = Except.ok am →
      st.load_image image_path = Except.ok orig →
      List.lookup (effectiveVersion sv img) answer_keys = Option.none →
      (process_omr_sheet st answer_keys image_path sv sid).success = true
        ∧ (process_omr_sheet st answer_keys image_path sv sid).scores
            = ScoresField.error
                ("No answer key for version " ++ effectiveVersion sv img)
        ∧ (process_omr_sheet st answer_keys image_path sv sid).student_answers
            = am.answers
        ∧ (process_omr_sheet st answer_keys image_path sv sid).bubble_detection
            = Option.some br := by
  intro st keys path sv sid img info br am orig hpre hdet hbub hmap hload hkey
  unfold process_omr_sheet
  simp only [hpre, hdet, hmap, hload, hkey, if_neg hbub]
  cases hm : confidenceMetrics br.confidence_scores <;>
    simp [hm, failWith]

/-- Concrete instantiation of `C4_missing_key_explicit_error_payload` at the
declared version "Z" with an empty key table. -/

theorem C4_missing_key_explicit_error_payload_witness :
    (process_omr_sheet oneBubbleStages [] "sheet.jpg" (Option.some "Z")
        Option.none).success = true
      ∧ (process_omr_sheet oneBubbleStages [] "sheet.jpg" (Option.some "Z")
          Option.none).scores
          = ScoresField.error
              ("No answer key for version "
                ++ effectiveVersion (Option.some "Z") (Image.gray [[0]]))
      ∧ (process_omr_sheet oneBubbleStages [] "sheet.jpg" (Option.some "Z")
          Option.none).student_answers
          = ({ answers := [("Q1", StudentAnswer.ans 'A')],
               flagged_questions := [] } : AnswerMapping).answers
      ∧ (process_omr_sheet oneBubbleStages [] "sheet.jpg" (Option.some "Z")
          Option.none).bubble_detection
          = Option.some
              { bubbles_detected := 1
                grid_structure := Option.some
                  { rows := [[{ bubble := Bubble.circle 0 0 1, index := 0 }]] }
                classifications := [true], confidence_scores := [1] } :=
  C4_missing_key_explicit_error_payload oneBubbleStages [] "sheet.jpg"
    (Option.some "Z") Option.none (Image.gray [[0]]) "deskewed"
    { bubbles_detected := 1
      grid_structure := Option.some
        { rows := [[{ bubble := Bubble.circle 0 0 1, index := 0 }]] }
      classifications := [true], confidence_scores := [1] }
    { answers := [("Q1", StudentAnswer.ans 'A')], flagged_questions := [] }
    (Image.gray [[0]]) rfl rfl (by decide) rfl rfl rfl
